import Mathlib

/-!
Verification of the sapp `ModelGenerator` pipeline step
(`tools/sapp/sapp/model_generator.py`).

The builder consumes raw issues plus pools of precondition/postcondition
trace-edge fragments and produces a trace graph: interned shared texts,
issues, issue instances, trace frames, leaf associations, together with
diagnostics (`missing_traces`, `big_tito`).

The supporting modules `models.py` and `trace_graph.py` (Content Store and
Graph Store) are not part of the available sources; their operations are
modelled from the specification (sections 3, 4.1, 4.2, 4.3) and are marked
`Modelled from the spec:` in their doc comments.  Everything else is a
direct translation of `model_generator.py`.

Modelling conventions:
* Python dict/set state becomes explicit state passing on `GenState`.
* DBID allocation (fresh identities) is modelled by the counter
  `GenState.nextId`; every created record draws its id from it.
* The unbounded `while` worklist of `_generate_transitive_trace_frames`
  is embedded with explicit fuel (`expandLoop`); termination is the
  content of the C1 theorem.
* Trace-frame annotation records and their nested sub-traces
  (`_generate_trace_annotations`, lines 401-480) are outside the modelled
  fragment: no claim concerns them, and all modelled entries carry no
  annotation list.  The `store_unused_models` debug branch of `run`
  (lines 71-74) is likewise outside the fragment.
* Python `datetime.now()` is modelled by an explicit `now : Nat` input.
* Iteration over a Python `set` has unspecified order; the model iterates
  the corresponding `Finset` in ascending sorted order.
-/

/-- Modelled from the spec: kinds of interned shared text (section 3,
`SharedText`). -/
inductive SharedTextKind where
  | SOURCE | SINK | SOURCE_DETAIL | SINK_DETAIL
  | MESSAGE | FILENAME | CALLABLE | FEATURE
deriving DecidableEq, Repr

/-- Trace kinds: PRECONDITION (flow toward a sink), POSTCONDITION (flow
from a source). -/
inductive TraceKind where
  | PRECONDITION | POSTCONDITION
deriving DecidableEq, Repr

/-- Modelled from the spec: run status values (section 3, `Run`). -/
inductive RunStatus where
  | FINISHED | INCOMPLETE | IN_PROGRESS
deriving DecidableEq, Repr

/-- Modelled from the spec: issue status; the builder always uses
UNCATEGORIZED. -/
inductive IssueStatus where
  | UNCATEGORIZED
deriving DecidableEq, Repr

/-- A source location; the Python `end` field is called `stop` here
because `end` is reserved in Lean. -/
structure SourceLocation where
  line : Nat
  start : Nat
  stop : Nat
deriving DecidableEq, Repr

/-- Modelled from the spec: the fixed maximum shared-text length used for
truncation before interning.  The concrete bound is not fixed by the
available sources; no theorem depends on its value. -/
def SHARED_TEXT_LENGTH : Nat := 4096

/-- Python string slicing `name[:n]`, written on the character list so
that it evaluates cheaply in the kernel. -/
def strTake (s : String) (n : Nat) : String := ⟨s.data.take n⟩

/-- Python `str.startswith`. -/
def strStartsWith (s pre : String) : Bool := pre.data.isPrefixOf s.data

/-- Modelled from the spec: an interned shared-text record
`{id, kind, content}` (section 3). -/
structure SharedText where
  id : Nat
  contents : String
  kind : SharedTextKind
deriving DecidableEq, Repr

/-- Modelled from the spec: one analysis run (section 3, `Run`).  The
`issue_instances` back-references and the wall-clock date are kept only as
the abstract `date` input. -/
structure Run where
  id : Nat
  jobId : Option String
  date : Nat
  status : RunStatus
  statusDescription : Option String
  repository : Option String
  branch : Option String
  commitHash : Option String
  kind : Option String
deriving DecidableEq, Repr

/-- Modelled from the spec: a deduplicated finding (section 3, `Issue`). -/
structure Issue where
  id : Nat
  code : Nat
  handle : String
  status : IssueStatus
  firstSeen : Nat
  runId : Nat
deriving DecidableEq, Repr

/-- Modelled from the spec: one concrete occurrence of an Issue within a
Run (section 3, `IssueInstance`). -/
structure IssueInstance where
  id : Nat
  issueId : Nat
  location : SourceLocation
  filenameId : Nat
  callableId : Nat
  runId : Nat
  fixInfoId : Option Nat
  messageId : Nat
  rank : Nat
  minTraceLengthToSources : Nat
  minTraceLengthToSinks : Nat
  callableCount : Nat
deriving DecidableEq, Repr

/-- Modelled from the spec: fix information attached to an issue instance. -/
structure IssueInstanceFixInfo where
  id : Nat
  fixInfo : String
deriving DecidableEq, Repr

/-- Modelled from the spec: a directed call edge `caller(+port) ->
callee(+port)` (section 3, `TraceFrame`).  Caller, callee and filename are
shared-text references. -/
structure TraceFrame where
  id : Nat
  kind : TraceKind
  callerId : Nat
  callerPort : String
  calleeId : Nat
  calleePort : String
  calleeLocation : SourceLocation
  filenameId : Nat
  titos : List SourceLocation
  runId : Nat
  preservesTypeContext : Bool
  typeIntervalLower : Option Int
  typeIntervalUpper : Option Int
deriving DecidableEq, Repr

/-- Modelled from the spec: the Graph Store (section 4.2).  Association
stores are append-only lists: `add_*_assoc` is not guaranteed idempotent,
deduplication is the responsibility of the builder. -/
structure TraceGraph where
  sharedTexts : List SharedText
  issues : List Issue
  issueInstances : List IssueInstance
  traceFrames : List TraceFrame
  fixInfos : List IssueInstanceFixInfo
  /-- triples (frame id, leaf shared-text id, depth) -/
  traceFrameLeafAssoc : List (Nat × Nat × Nat)
  issueInstanceSharedTextAssoc : List (Nat × Nat)
  issueInstanceTraceFrameAssoc : List (Nat × Nat)
  issueInstanceFixInfoAssoc : List (Nat × Nat)
deriving DecidableEq, Repr

/-- The empty graph, `TraceGraph()`. -/
def TraceGraph.empty : TraceGraph :=
  ⟨[], [], [], [], [], [], [], [], []⟩

namespace TraceGraph

/-- Modelled from the spec: `get_shared_text` returns the existing record
for `(kind, content)` if present (section 4.1). -/
def getSharedText (g : TraceGraph) (kind : SharedTextKind) (name : String) :
    Option SharedText :=
  g.sharedTexts.find? (fun t => t.kind = kind ∧ t.contents = name)

/-- Modelled from the spec: insert a new shared-text record. -/
def addSharedText (g : TraceGraph) (t : SharedText) : TraceGraph :=
  { g with sharedTexts := g.sharedTexts ++ [t] }

/-- Modelled from the spec: `get_text` renders an interned id back to its
content. -/
def getText (g : TraceGraph) (id : Nat) : String :=
  ((g.sharedTexts.find? (fun t => t.id = id)).map (fun t => t.contents)).getD ""

/-- Modelled from the spec: insert-only `add_issue`. -/
def addIssue (g : TraceGraph) (i : Issue) : TraceGraph :=
  { g with issues := g.issues ++ [i] }

/-- Modelled from the spec: insert-only `add_issue_instance`. -/
def addIssueInstance (g : TraceGraph) (i : IssueInstance) : TraceGraph :=
  { g with issueInstances := g.issueInstances ++ [i] }

/-- Modelled from the spec: insert-only `add_trace_frame`. -/
def addTraceFrame (g : TraceGraph) (f : TraceFrame) : TraceGraph :=
  { g with traceFrames := g.traceFrames ++ [f] }

/-- Modelled from the spec: record a `(frame, leaf text, depth)`
association. -/
def addTraceFrameLeafAssoc (g : TraceGraph) (f : TraceFrame) (t : SharedText)
    (depth : Nat) : TraceGraph :=
  { g with traceFrameLeafAssoc := g.traceFrameLeafAssoc ++ [(f.id, t.id, depth)] }

/-- Modelled from the spec: associate a shared text with an issue
instance. -/
def addIssueInstanceSharedTextAssoc (g : TraceGraph) (i : IssueInstance)
    (t : SharedText) : TraceGraph :=
  { g with issueInstanceSharedTextAssoc :=
      g.issueInstanceSharedTextAssoc ++ [(i.id, t.id)] }

/-- Modelled from the spec: associate a trace frame with an issue
instance. -/
def addIssueInstanceTraceFrameAssoc (g : TraceGraph) (i : IssueInstance)
    (f : TraceFrame) : TraceGraph :=
  { g with issueInstanceTraceFrameAssoc :=
      g.issueInstanceTraceFrameAssoc ++ [(i.id, f.id)] }

/-- Modelled from the spec: attach fix info to an issue instance. -/
def addIssueInstanceFixInfo (g : TraceGraph) (i : IssueInstance)
    (fi : IssueInstanceFixInfo) : TraceGraph :=
  { g with
      fixInfos := g.fixInfos ++ [fi],
      issueInstanceFixInfoAssoc := g.issueInstanceFixInfoAssoc ++ [(i.id, fi.id)] }

/-- Modelled from the spec: `has_trace_frames_with_caller` (section 4.2). -/
def hasTraceFramesWithCaller (g : TraceGraph) (kind : TraceKind)
    (callerId : Nat) (port : String) : Bool :=
  g.traceFrames.any
    (fun f => f.kind = kind ∧ f.callerId = callerId ∧ f.callerPort = port)

/-- Modelled from the spec: `get_trace_frames_from_caller` (section 4.2). -/
def getTraceFramesFromCaller (g : TraceGraph) (kind : TraceKind)
    (callerId : Nat) (port : String) : List TraceFrame :=
  g.traceFrames.filter
    (fun f => f.kind = kind ∧ f.callerId = callerId ∧ f.callerPort = port)

/-- Modelled from the spec: `get_trace_frame_leaf_ids` returns the leaf
identities already associated with a frame (section 4.2). -/
def getTraceFrameLeafIds (g : TraceGraph) (f : TraceFrame) : Finset Nat :=
  ((g.traceFrameLeafAssoc.filter (fun a => a.1 = f.id)).map
    (fun a => a.2.1)).toFinset

end TraceGraph

/-- A type interval `{start?, finish?, preserves_type_context}` as read by
`_get_interval`. -/
structure TypeInterval where
  start : Option Int
  finish : Option Int
  preservesTypeContext : Bool
deriving DecidableEq, Repr

/-- A feature value as found in an issue feature map: a JSON string or any
non-string JSON value (only that distinction matters to the code). -/
inductive FeatureValue where
  | str (s : String)
  | other
deriving DecidableEq, Repr

/-- A call-edge fragment attached directly to an issue
(`entry["preconditions"]` / `entry["postconditions"]` items): callee,
callee port (`callinfo["port"]`), location, `(leaf, depth)` pairs, TITO
positions and type interval. -/
structure IssueCallInfo where
  callee : String
  port : String
  location : SourceLocation
  leaves : List (String × Nat)
  titos : List SourceLocation
  typeInterval : TypeInterval
deriving DecidableEq, Repr

/-- A raw trace-edge fragment from the trace pool, as consumed by
`_generate_trace_frame`.  `leaves` is optional; when it is missing or
empty the `sources`/`sinks` field is selected by the trace kind. -/
structure PoolEntry where
  caller : String
  callerPort : String
  callee : String
  calleePort : String
  calleeLocation : SourceLocation
  filename : String
  titos : List SourceLocation
  leaves : Option (List (String × Nat))
  sources : List (String × Nat)
  sinks : List (String × Nat)
  typeInterval : TypeInterval
deriving DecidableEq, Repr

/-- A raw issue record (section 6, `issues` input).  `initial_sources` and
`final_sinks` are `(name, kind, depth)` triples. -/
structure IssueEntry where
  code : Nat
  handle : String
  callable : String
  filename : String
  message : String
  line : Nat
  start : Nat
  stop : Nat
  fixInfo : Option String
  preconditions : List IssueCallInfo
  postconditions : List IssueCallInfo
  initialSources : List (String × String × Nat)
  finalSinks : List (String × String × Nat)
  features : List (List (String × FeatureValue))
deriving DecidableEq, Repr

/-- The pool key `(caller_text, caller_port)`. -/
abbrev PoolKey := String × String

/-- The full input batch (`DictEntries`): issues plus the two fragment
pools, indexed by `(caller, caller_port)`. -/
structure DictEntries where
  issues : List IssueEntry
  preconditions : List (PoolKey × List PoolEntry)
  postconditions : List (PoolKey × List PoolEntry)

/-- The configuration part of the summary consumed by the builder
(`job_id`, `repository`, `branch`, `commit_hash`, `run_kind`). -/
structure Config where
  jobId : Option String
  repository : Option String
  branch : Option String
  commitHash : Option String
  runKind : Option String

/-- The whole mutable state of the builder: the graph under construction,
the DBID counter, `self.visited_frames`, and the summary scratchpad
entries `trace_entries`, `missing_traces`, `big_tito`. -/
structure GenState where
  graph : TraceGraph
  nextId : Nat
  visitedFrames : List (Nat × Finset Nat)
  traceEntries : TraceKind → List (PoolKey × List PoolEntry)
  missingTraces : TraceKind → Finset PoolKey
  bigTito : Finset (String × String × Nat)

/-- Python `dict.pop(key, [])` on an association-list pool: returns the
fragments filed under `key` and the pool with that key removed. -/
def dictPop (pool : List (PoolKey × List PoolEntry)) (key : PoolKey) :
    List PoolEntry × List (PoolKey × List PoolEntry) :=
  (((pool.find? (fun p => p.1 = key)).map (fun p => p.2)).getD [],
    pool.filter (fun p => p.1 ≠ key))

/-- Python `list.pop()`: removes and returns the LAST element. -/
def pyPop {α : Type} (l : List α) : Option (α × List α) :=
  match l.reverse with
  | [] => none
  | x :: rest => some (x, rest.reverse)

/-- Python dict write `d[k] = v` on the visited-frames association list. -/
def setVisited (v : List (Nat × Finset Nat)) (i : Nat) (s : Finset Nat) :
    List (Nat × Finset Nat) :=
  (i, s) :: v.filter (fun p => p.1 ≠ i)

namespace ModelGenerator

/-- `_get_shared_text` (lines 485-491): truncate, return the existing
record for `(kind, truncated)` if present, otherwise create and store a
new one. -/
def _get_shared_text (st : GenState) (kind : SharedTextKind) (name : String) :
    SharedText × GenState :=
  let name := strTake name SHARED_TEXT_LENGTH
  match st.graph.getSharedText kind name with
  | some t => (t, st)
  | none =>
      let t : SharedText := ⟨st.nextId, name, kind⟩
      (t, { st with nextId := st.nextId + 1, graph := st.graph.addSharedText t })

/-- `_is_leaf_port` (lines 298-305). -/
def _is_leaf_port (port : String) : Bool :=
  port = "leaf" || port = "source" || port = "sink"
    || strStartsWith port "anchor:" || strStartsWith port "producer:"

/-- `_generate_tito` (lines 225-236): convert the raw TITO positions,
capping at 200 and recording `(filename, callable, original_count)` in
`big_tito` on overflow. -/
def _generate_tito (st : GenState) (filename : String)
    (entryTitos : List SourceLocation) (callable : String) :
    List SourceLocation × GenState :=
  let titos := entryTitos.map (fun t => SourceLocation.mk t.line t.start t.stop)
  if titos.length > 200 then
    let preKey : String × String × Nat := (filename, callable, titos.length)
    let st :=
      if preKey ∉ st.bigTito then { st with bigTito := insert preKey st.bigTito }
      else st
    (titos.take 200, st)
  else (titos, st)

/-- `_get_interval` (lines 417-421). -/
def _get_interval (ti : TypeInterval) : Option Int × Option Int × Bool :=
  (ti.start, ti.finish, ti.preservesTypeContext)

/-- The leaf kind selected in `_generate_raw_trace_frame` (lines 364-368). -/
def leafKindOf (kind : TraceKind) : SharedTextKind :=
  if kind = TraceKind.POSTCONDITION then SharedTextKind.SOURCE
  else SharedTextKind.SINK

/-- The `for (leaf, depth) in leaves` loop of `_generate_raw_trace_frame`
(lines 394-398): intern each leaf, collect its id, and append the
`(frame, leaf, depth)` association. -/
def internLeaves (leafKind : SharedTextKind) (frame : TraceFrame) :
    List (String × Nat) → Finset Nat → GenState → Finset Nat × GenState
  | [], acc, st => (acc, st)
  | (leaf, depth) :: rest, acc, st =>
      let p := _get_shared_text st leafKind leaf
      let st' := { p.2 with
        graph := p.2.graph.addTraceFrameLeafAssoc frame p.1 depth }
      internLeaves leafKind frame rest (insert p.1.id acc) st'

/-- `_generate_raw_trace_frame` (lines 349-404), minus the annotation
sub-trace generation (outside the modelled fragment).  Interns caller,
callee and filename, creates the frame with a fresh id, records the leaf
associations and returns the frame together with its leaf-id set. -/
def _generate_raw_trace_frame (kind : TraceKind) (run : Run) (st : GenState)
    (filename caller caller_port callee callee_port : String)
    (callee_location : SourceLocation) (titos : List SourceLocation)
    (leaves : List (String × Nat)) (type_interval : TypeInterval) :
    (TraceFrame × Finset Nat) × GenState :=
  let leaf_kind := leafKindOf kind
  let iv := _get_interval type_interval
  let pCaller := _get_shared_text st SharedTextKind.CALLABLE caller
  let pCallee := _get_shared_text pCaller.2 SharedTextKind.CALLABLE callee
  let pFile := _get_shared_text pCallee.2 SharedTextKind.FILENAME filename
  let st3 := pFile.2
  let trace_frame : TraceFrame :=
    { id := st3.nextId
      kind := kind
      callerId := pCaller.1.id
      callerPort := caller_port
      calleeId := pCallee.1.id
      calleePort := callee_port
      calleeLocation :=
        SourceLocation.mk callee_location.line callee_location.start
          callee_location.stop
      filenameId := pFile.1.id
      titos := titos
      runId := run.id
      preservesTypeContext := iv.2.2
      typeIntervalLower := iv.1
      typeIntervalUpper := iv.2.1 }
  let st4 := { st3 with nextId := st3.nextId + 1 }
  let pLeaves := internLeaves leaf_kind trace_frame leaves ∅ st4
  let st5 := { pLeaves.2 with
    graph := pLeaves.2.graph.addTraceFrame trace_frame }
  ((trace_frame, pLeaves.1), st5)

/-- `_generate_trace_frame` (lines 326-347): materialize one pool fragment,
defaulting empty/missing `leaves` to `sources`/`sinks` by kind. -/
def _generate_trace_frame (kind : TraceKind) (run : Run) (st : GenState)
    (entry : PoolEntry) : (TraceFrame × Finset Nat) × GenState :=
  let callee_location := entry.calleeLocation
  let p := _generate_tito st entry.filename entry.titos entry.caller
  let leaves0 := (entry.leaves).getD []
  let leaves :=
    if leaves0 = [] then
      if kind = TraceKind.POSTCONDITION then entry.sources else entry.sinks
    else leaves0
  _generate_raw_trace_frame kind run p.2 entry.filename entry.caller
    entry.callerPort entry.callee entry.calleePort callee_location p.1 leaves
    entry.typeInterval

/-- The list comprehension of `_get_or_populate_trace_frames` (lines
318-321): materialize each popped fragment in order. -/
def mapGenFrames (kind : TraceKind) (run : Run) :
    List PoolEntry → GenState → List (TraceFrame × Finset Nat) × GenState
  | [], st => ([], st)
  | e :: es, st =>
      let p := _generate_trace_frame kind run st e
      let q := mapGenFrames kind run es p.2
      (p.1 :: q.1, q.2)

/-- `_get_or_populate_trace_frames` (lines 307-324): reuse frames already
materialized for `(caller_id, caller_port)`, otherwise pop matching pool
fragments, materialize them, and record a missing-trace diagnostic when
nothing was found and the port is not a leaf port. -/
def _get_or_populate_trace_frames (kind : TraceKind) (run : Run)
    (st : GenState) (caller_id : Nat) (caller_port : String) :
    List (TraceFrame × Finset Nat) × GenState :=
  if st.graph.hasTraceFramesWithCaller kind caller_id caller_port then
    (((st.graph.getTraceFramesFromCaller kind caller_id caller_port).map
      (fun f => (f, st.graph.getTraceFrameLeafIds f))), st)
  else
    let key : PoolKey := (st.graph.getText caller_id, caller_port)
    let popped := dictPop (st.traceEntries kind) key
    let st1 := { st with
      traceEntries := fun k =>
        if k = kind then popped.2 else st.traceEntries k }
    let pNew := mapGenFrames kind run popped.1 st1
    let st2 :=
      if pNew.1.length = 0 ∧ ¬ _is_leaf_port key.2 then
        { pNew.2 with
          missingTraces := fun k =>
            if k = kind then insert key (pNew.2.missingTraces k)
            else pNew.2.missingTraces k }
      else pNew.2
    (pNew.1, st2)

/-- One iteration of the `while` worklist loop of
`_generate_transitive_trace_frames` (lines 272-296): pop the most recently
enqueued `(frame, leaves)` entry, prune empty or fully visited leaf sets,
otherwise record the new leaves as visited, resolve the next frames and
push them with intersected leaf sets.  Returns `none` when the queue is
empty (the loop exits). -/
def expandStep (kind : TraceKind) (run : Run)
    (s : GenState × List (TraceFrame × Finset Nat)) :
    Option (GenState × List (TraceFrame × Finset Nat)) :=
  match pyPop s.2 with
  | none => none
  | some ((frame, leaves), rest) =>
      let st := s.1
      if leaves = ∅ then some (st, rest)
      else
        let frame_id := frame.id
        match (st.visitedFrames.find? (fun p => p.1 = frame_id)).map
            (fun p => p.2) with
        | some vis =>
            let leaves' := leaves \ vis
            if leaves' = ∅ then some (st, rest)
            else
              let st1 := { st with
                visitedFrames := setVisited st.visitedFrames frame_id
                  (vis ∪ leaves') }
              let pNext := _get_or_populate_trace_frames kind run st1
                frame.calleeId frame.calleePort
              some (pNext.2,
                rest ++ pNext.1.map (fun q => (q.1, leaves' ∩ q.2)))
        | none =>
            let st1 := { st with
              visitedFrames := setVisited st.visitedFrames frame_id leaves }
            let pNext := _get_or_populate_trace_frames kind run st1
              frame.calleeId frame.calleePort
            some (pNext.2,
              rest ++ pNext.1.map (fun q => (q.1, leaves ∩ q.2)))

/-- The fuel-indexed worklist loop: `some` is the state at loop exit,
`none` means the fuel ran out before the queue drained. -/
def expandLoop (kind : TraceKind) (run : Run) :
    Nat → GenState × List (TraceFrame × Finset Nat) → Option GenState
  | 0, _ => none
  | fuel + 1, s =>
      match expandStep kind run s with
      | none => some s.1
      | some s' => expandLoop kind run fuel s'

/-- The observable schedule of the worklist loop, derived from
`expandStep`: for every iteration, the id of the frame dequeued by
`queue.pop()` together with the ids of the frames enqueued by
`queue.extend(...)` in that iteration, in enqueue order. -/
def expandLog (kind : TraceKind) (run : Run) :
    Nat → GenState × List (TraceFrame × Finset Nat) → List (Nat × List Nat)
  | 0, _ => []
  | fuel + 1, s =>
      match pyPop s.2 with
      | none => []
      | some (e, rest) =>
          match expandStep kind run s with
          | none => []
          | some s' =>
              (e.1.id, (s'.2.drop rest.length).map (fun q => q.1.id)) ::
                expandLog kind run fuel s'

/-- `_generate_transitive_trace_frames` (lines 264-296): run the worklist
loop from the queue `[(start_frame, leaf_ids)]`, with the trace kind taken
from the start frame. -/
def _generate_transitive_trace_frames (run : Run) (fuel : Nat)
    (st : GenState) (start_frame : TraceFrame) (leaf_ids : Finset Nat) :
    Option GenState :=
  expandLoop start_frame.kind run fuel (st, [(start_frame, leaf_ids)])

/-- `_generate_issue_traces` (lines 238-262): synthesize the first-hop
frame for one of the issue call-edge fragments (caller port `"root"`,
caller and filename from the issue) and expand it transitively. -/
def _generate_issue_traces (kind : TraceKind) (run : Run) (fuel : Nat)
    (st : GenState) (issue : IssueEntry) (callinfo : IssueCallInfo) :
    Option (TraceFrame × GenState) :=
  let caller := issue.callable
  let callee := callinfo.callee
  let callee_port := callinfo.port
  let pTitos := _generate_tito st issue.filename callinfo.titos caller
  let pFrame := _generate_raw_trace_frame kind run pTitos.2 issue.filename
    caller "root" callee callee_port callinfo.location pTitos.1
    callinfo.leaves callinfo.typeInterval
  match _generate_transitive_trace_frames run fuel pFrame.2 pFrame.1.1
      pFrame.1.2 with
  | none => none
  | some st' => some (pFrame.1.1, st')

/-- `_get_minimum_trace_length` (lines 107-115): the smallest depth among
all `(leaf, depth)` pairs of the given call-edge fragments, `0` when there
are none. -/
def _get_minimum_trace_length (entries : List IssueCallInfo) : Nat :=
  let length := entries.foldl
    (fun acc e => e.leaves.foldl
      (fun acc ld =>
        match acc with
        | none => some ld.2
        | some m => if m > ld.2 then some ld.2 else acc)
      acc)
    (none : Option Nat)
  length.getD 0

/-- `_generate_issue_feature_contents` (lines 406-415): render each
`(key, value)` pair as `"key:value"` for a non-empty string value and as
`"key"` otherwise, collected into a set. -/
def _generate_issue_feature_contents (_issue : IssueEntry)
    (feature : List (String × FeatureValue)) : Finset String :=
  feature.foldl
    (fun features kv =>
      match kv.2 with
      | FeatureValue.str v => if v ≠ "" then insert (kv.1 ++ ":" ++ v) features
                              else insert kv.1 features
      | FeatureValue.other => insert kv.1 features)
    ∅

/-- `_get_issue_handle` (lines 482-483). -/
def _get_issue_handle (entry : IssueEntry) : String := entry.handle

/-- `get_location` (lines 493-498) with the default `is_relative=False`. -/
def get_location (entry : IssueEntry) : SourceLocation :=
  SourceLocation.mk entry.line entry.start entry.stop

/-- A set comprehension `{_get_shared_text(kind, n) for n in names}`:
intern every name in order, collecting the resulting identities. -/
def internSet (kind : SharedTextKind) :
    List String → GenState → Finset Nat × GenState
  | [], st => (∅, st)
  | n :: ns, st =>
      let p := _get_shared_text st kind n
      let q := internSet kind ns p.2
      (insert p.1.id q.1, q.2)

/-- A `for x in xs: add_issue_instance_shared_text_assoc(instance, x)` loop
over an id set, iterated in ascending order (Python set order is
unspecified); each id is rendered back to its record via the text list. -/
def addTextAssocs (instance' : IssueInstance) (ids : List Nat)
    (st : GenState) : GenState :=
  ids.foldl
    (fun st i =>
      { st with graph :=
          { st.graph with issueInstanceSharedTextAssoc :=
              st.graph.issueInstanceSharedTextAssoc ++ [(instance'.id, i)] } })
    st

/-- The feature loop of `_generate_issue` (lines 218-220): intern each
rendered feature as FEATURE text and associate it with the instance. -/
def addFeatureAssocs (instance' : IssueInstance) :
    List String → GenState → GenState
  | [], st => st
  | f :: fs, st =>
      let p := _get_shared_text st SharedTextKind.FEATURE f
      let st' := { p.2 with
        graph := p.2.graph.addIssueInstanceSharedTextAssoc instance' p.1 }
      addFeatureAssocs instance' fs st'

/-- The two `for p in entry[...]` loops of `_generate_issue` (lines
123-131): generate the first-hop traces of each fragment, collecting the
synthesized frames. -/
def genIssueTracesFold (kind : TraceKind) (run : Run) (fuel : Nat)
    (issue : IssueEntry) :
    List IssueCallInfo → GenState → Option (List TraceFrame × GenState)
  | [], st => some ([], st)
  | c :: cs, st =>
      match _generate_issue_traces kind run fuel st issue c with
      | none => none
      | some (tf, st') =>
          match genIssueTracesFold kind run fuel issue cs st' with
          | none => none
          | some (tfs, st'') => some (tf :: tfs, st'')

/-- `_compute_callables_count` (lines 78-87): how many issue records share
each callable. -/
def _compute_callables_count (issues : List IssueEntry) : String → Nat :=
  fun c => (issues.filter (fun i => i.callable = c)).length

/-- The set of rendered features of an issue: the union of
`_generate_issue_feature_contents` over all its feature maps (the
`features.update(...)` loop of `_generate_issue`, lines 133-135). -/
def issueFeatures (entry : IssueEntry) : Finset String :=
  entry.features.foldl
    (fun acc f => acc ∪ _generate_issue_feature_contents entry f) ∅

/-- The part of `_generate_issue` after the two trace loops (lines
133-222): create the Issue and IssueInstance records, intern the leaf and
detail texts, and attach every association. -/
def _generate_issue_tail (run : Run) (entry : IssueEntry)
    (callablesCount : String → Nat) (trace_frames : List TraceFrame)
    (stB : GenState) : GenState :=
      let features := issueFeatures entry
      let callable := entry.callable
      let handle := _get_issue_handle entry
      let pIS := internSet SharedTextKind.SOURCE
        (entry.initialSources.map (fun t => t.2.1)) stB
      let pFS := internSet SharedTextKind.SINK
        (entry.finalSinks.map (fun t => t.2.1)) pIS.2
      let pSD := internSet SharedTextKind.SOURCE_DETAIL
        ((entry.initialSources.filter (fun t => t.1 ≠ "")).map (fun t => t.1))
        pFS.2
      let pKD := internSet SharedTextKind.SINK_DETAIL
        ((entry.finalSinks.filter (fun t => t.1 ≠ "")).map (fun t => t.1))
        pSD.2
      let st1 := pKD.2
      let issue : Issue :=
        { id := st1.nextId, code := entry.code, handle := handle
          status := IssueStatus.UNCATEGORIZED, firstSeen := run.date
          runId := run.id }
      let st2 := { st1 with
        nextId := st1.nextId + 1
        graph := st1.graph.addIssue issue }
      let pFix : Option IssueInstanceFixInfo × GenState :=
        match entry.fixInfo with
        | none => (none, st2)
        | some s =>
            (some ⟨st2.nextId, s⟩, { st2 with nextId := st2.nextId + 1 })
      let fix_info := pFix.1
      let fix_info_id := fix_info.map (fun fi => fi.id)
      let pMsg := _get_shared_text pFix.2 SharedTextKind.MESSAGE entry.message
      let pFile := _get_shared_text pMsg.2 SharedTextKind.FILENAME
        entry.filename
      let pCal := _get_shared_text pFile.2 SharedTextKind.CALLABLE callable
      let st3 := pCal.2
      let instance' : IssueInstance :=
        { id := st3.nextId
          issueId := issue.id
          location := get_location entry
          filenameId := pFile.1.id
          callableId := pCal.1.id
          runId := run.id
          fixInfoId := fix_info_id
          messageId := pMsg.1.id
          rank := 0
          minTraceLengthToSources :=
            _get_minimum_trace_length entry.postconditions
          minTraceLengthToSinks :=
            _get_minimum_trace_length entry.preconditions
          callableCount := callablesCount callable }
      let st4 := { st3 with nextId := st3.nextId + 1 }
      let st5 := addTextAssocs instance' (pFS.1.sort (· ≤ ·)) st4
      let st6 := addTextAssocs instance' (pKD.1.sort (· ≤ ·)) st5
      let st7 := addTextAssocs instance' (pIS.1.sort (· ≤ ·)) st6
      let st8 := addTextAssocs instance' (pSD.1.sort (· ≤ ·)) st7
      let st9 :=
        match fix_info with
        | none => st8
        | some fi =>
            { st8 with graph := st8.graph.addIssueInstanceFixInfo instance' fi }
      let st10 := trace_frames.foldl
        (fun st tf =>
          { st with
            graph := st.graph.addIssueInstanceTraceFrameAssoc instance' tf })
        st9
      let st11 := addFeatureAssocs instance' (features.sort (· ≤ ·)) st10
      { st11 with graph := st11.graph.addIssueInstance instance' }

/-- `_generate_issue` (lines 117-222): generate and attach the first-hop
traces of each direct fragment, then build the issue records and
associations via `_generate_issue_tail`. -/
def _generate_issue (run : Run) (fuel : Nat) (st : GenState)
    (entry : IssueEntry) (callablesCount : String → Nat) : Option GenState :=
  match genIssueTracesFold TraceKind.PRECONDITION run fuel entry
      entry.preconditions st with
  | none => none
  | some (tfsPre, stA) =>
    match genIssueTracesFold TraceKind.POSTCONDITION run fuel entry
        entry.postconditions stA with
    | none => none
    | some (tfsPost, stB) =>
      some (_generate_issue_tail run entry callablesCount (tfsPre ++ tfsPost)
        stB)

/-- `_create_empty_run` (lines 89-105): the Run construction boilerplate;
the `status` parameter defaults to FINISHED. -/
def _create_empty_run (cfg : Config) (now : Nat)
    (status : RunStatus := RunStatus.FINISHED)
    (status_description : Option String := none) : Run :=
  { id := 0
    jobId := cfg.jobId
    date := now
    status := status
    statusDescription := status_description
    repository := cfg.repository
    branch := cfg.branch
    commitHash := cfg.commitHash
    kind := cfg.runKind }

/-- The returned summary of `run`: the Run record plus the diagnostic and
leftover-pool entries of the summary scratchpad. -/
structure Summary where
  run : Run
  missingTraces : TraceKind → Finset PoolKey
  bigTito : Finset (String × String × Nat)
  traceEntries : TraceKind → List (PoolKey × List PoolEntry)

/-- The `for entry in input["issues"]` loop of `run` (lines 68-69). -/
def genIssuesFold (run : Run) (fuel : Nat) (callablesCount : String → Nat) :
    List IssueEntry → GenState → Option GenState
  | [], st => some st
  | e :: es, st =>
      match _generate_issue run fuel st e callablesCount with
      | none => none
      | some st' => genIssuesFold run fuel callablesCount es st'

/-- `run` (lines 48-76): initialize the summary scratchpad and the empty
graph, create the Run with status INCOMPLETE and a fresh id, file the two
pools, and process every issue.  Returns the graph and summary. -/
def run (fuel : Nat) (cfg : Config) (now : Nat) (input : DictEntries) :
    Option (TraceGraph × Summary) :=
  let st0 : GenState :=
    { graph := TraceGraph.empty
      nextId := 0
      visitedFrames := []
      traceEntries := fun k =>
        match k with
        | TraceKind.PRECONDITION => input.preconditions
        | TraceKind.POSTCONDITION => input.postconditions
      missingTraces := fun _ => ∅
      bigTito := ∅ }
  let run0 := _create_empty_run cfg now RunStatus.INCOMPLETE
  let runObj := { run0 with id := st0.nextId }
  let st1 := { st0 with nextId := st0.nextId + 1 }
  let callables := _compute_callables_count input.issues
  match genIssuesFold runObj fuel callables input.issues st1 with
  | none => none
  | some st2 =>
      some (st2.graph,
        { run := runObj
          missingTraces := st2.missingTraces
          bigTito := st2.bigTito
          traceEntries := st2.traceEntries })

end ModelGenerator

/-- All leaf ids mentioned by the entries of a worklist queue. -/
def leafUniverse (q : List (TraceFrame × Finset Nat)) : Finset Nat :=
  q.foldr (fun e acc => e.2 ∪ acc) ∅

/-- The total number of fragments left in the pool of one trace kind. -/
def poolSize (st : GenState) (kind : TraceKind) : Nat :=
  ((st.traceEntries kind).map (fun p => p.2.length)).sum

/-- The leaf ids recorded as visited for a frame id (empty when the frame
was never visited). -/
def visitedLeaves (st : GenState) (i : Nat) : Finset Nat :=
  (((st.visitedFrames.find? (fun p => p.1 = i)).map (fun p => p.2)).getD ∅)

/-- The frame ids in scope of the expansion: materialized frames plus the
frames sitting in the queue. -/
def frameIdSet (st : GenState) (q : List (TraceFrame × Finset Nat)) :
    Finset Nat :=
  (st.graph.traceFrames.map (fun f => f.id)).toFinset ∪
    (q.map (fun e => e.1.id)).toFinset

/-- For every frame in scope, how many leaf ids of the queue universe are
not yet recorded as visited for it.  Expansion strictly shrinks this. -/
def leafDeficit (st : GenState) (q : List (TraceFrame × Finset Nat)) : Nat :=
  ∑ i ∈ frameIdSet st q, ((leafUniverse q) \ visitedLeaves st i).card

/-- The termination measure of the worklist loop: pool fragments weighted
by the leaf universe plus the leaf deficit.  Every loop iteration either
strictly decreases it or leaves it equal while shortening the queue. -/
def expMeasure (kind : TraceKind) (s : GenState × List (TraceFrame × Finset Nat)) :
    Nat :=
  ((leafUniverse s.2).card + 1) * poolSize s.1 kind + leafDeficit s.1 s.2

/-- Well-formedness of the builder state: every stored shared text and
trace frame carries an id below the allocation counter, text ids are
pairwise distinct, two stored texts never share `(kind, contents)`, and
every leaf association points at an already allocated frame id.  The
initial empty state is well formed and every builder operation preserves
this. -/
def GenState.WF (st : GenState) : Prop :=
  (∀ t ∈ st.graph.sharedTexts, t.id < st.nextId) ∧
  (st.graph.sharedTexts.map (fun t => t.id)).Nodup ∧
  (∀ t1 ∈ st.graph.sharedTexts, ∀ t2 ∈ st.graph.sharedTexts,
    t1.kind = t2.kind → t1.contents = t2.contents → t1 = t2) ∧
  (∀ a ∈ st.graph.traceFrameLeafAssoc, a.1 < st.nextId)

/-- What every trace-generation operation does to the state: the id
counter grows, shared texts are only added, leaf associations are only
appended and only for frames allocated from the current counter on, and
the issue-side stores are untouched. -/
structure TraceOpExt (st st' : GenState) : Prop where
  nextId_le : st.nextId ≤ st'.nextId
  texts_mono : ∀ t ∈ st.graph.sharedTexts, t ∈ st'.graph.sharedTexts
  assoc_ext : ∃ δ, st'.graph.traceFrameLeafAssoc =
      st.graph.traceFrameLeafAssoc ++ δ ∧ ∀ a ∈ δ, st.nextId ≤ a.1
  instances_eq : st'.graph.issueInstances = st.graph.issueInstances
  instTextAssoc_eq : st'.graph.issueInstanceSharedTextAssoc =
      st.graph.issueInstanceSharedTextAssoc
  instFrameAssoc_eq : st'.graph.issueInstanceTraceFrameAssoc =
      st.graph.issueInstanceTraceFrameAssoc
  issues_eq : st'.graph.issues = st.graph.issues
  fixInfos_eq : st'.graph.fixInfos = st.graph.fixInfos

/-- The depths of all `(leaf, depth)` pairs across the direct call-edge
fragments of an issue, the domain over which
`_get_minimum_trace_length` minimizes. -/
def directDepths (entries : List IssueCallInfo) : List Nat :=
  (entries.map (fun e => e.leaves.map (fun ld => ld.2))).flatten

/-- The option-valued minimum accumulator of `_get_minimum_trace_length`,
as a fold over a plain list of depths. -/
def minFold (l : List Nat) (acc : Option Nat) : Option Nat :=
  l.foldl
    (fun acc d =>
      match acc with
      | none => some d
      | some m => if m > d then some d else acc)
    acc

/-- How one `(key, value)` pair of a feature map is rendered (the body of
the loop in `_generate_issue_feature_contents`): `"key:value"` for a
non-empty string value, `"key"` otherwise. -/
def renderFeature (kv : String × FeatureValue) : String :=
  match kv.2 with
  | FeatureValue.str v => if v ≠ "" then kv.1 ++ ":" ++ v else kv.1
  | FeatureValue.other => kv.1


/-- The association entries appended by the feature loop
(`addFeatureAssocs`): one `(instance id, feature text id)` pair per
rendered feature, threading the interning state. -/
def featureBlock (inst : IssueInstance) : List String → GenState →
    List (Nat × Nat)
  | [], _ => []
  | f :: fs, st =>
      let p := ModelGenerator._get_shared_text st SharedTextKind.FEATURE f
      (inst.id, p.1.id) ::
        featureBlock inst fs
          { p.2 with
            graph := p.2.graph.addIssueInstanceSharedTextAssoc inst p.1 }

/-! Concrete inputs used by the witness and counterexample theorems. -/

/-- The completely fresh builder state. -/
def stEmpty : GenState :=
  { graph := TraceGraph.empty
    nextId := 0
    visitedFrames := []
    traceEntries := fun _ => []
    missingTraces := fun _ => ∅
    bigTito := ∅ }

/-- A run record for concrete evaluations. -/
def runW : Run := ⟨0, none, 0, RunStatus.INCOMPLETE, none, none, none, none, none⟩

/-- An empty type interval. -/
def tiW : TypeInterval := ⟨none, none, false⟩

/-- A first-hop frame for the scheduling counterexample: caller text 0,
callee text 1 (content "a"), callee port "p". -/
def cxFrame : TraceFrame :=
  { id := 2, kind := TraceKind.PRECONDITION, callerId := 0, callerPort := "root",
    calleeId := 1, calleePort := "p", calleeLocation := ⟨1, 1, 1⟩,
    filenameId := 0, titos := [], runId := 0, preservesTypeContext := false,
    typeIntervalLower := none, typeIntervalUpper := none }

/-- A pool fragment from caller "a" port "p" to callee "b" port "sink",
carrying leaf "L". -/
def cxEntryB : PoolEntry :=
  { caller := "a", callerPort := "p", callee := "b", calleePort := "sink",
    calleeLocation := ⟨1, 1, 1⟩, filename := "f", titos := [],
    leaves := some [("L", 1)], sources := [], sinks := [], typeInterval := tiW }

/-- The same fragment with callee "c". -/
def cxEntryC : PoolEntry := { cxEntryB with callee := "c" }

/-- A state whose precondition pool holds the two fragments `cxEntryB`,
`cxEntryC` under the key of `cxFrame`; expanding `cxFrame` materializes
frames 5 (callee "b") and 8 (callee "c") and enqueues them in that order. -/
def stC8 : GenState :=
  { graph := { TraceGraph.empty with
      sharedTexts := [⟨0, "m.caller", SharedTextKind.CALLABLE⟩,
                      ⟨1, "a", SharedTextKind.CALLABLE⟩]
      traceFrames := [cxFrame] }
    nextId := 3
    visitedFrames := []
    traceEntries := fun k =>
      match k with
      | TraceKind.PRECONDITION => [(("a", "p"), [cxEntryB, cxEntryC])]
      | TraceKind.POSTCONDITION => []
    missingTraces := fun _ => ∅
    bigTito := ∅ }

/-- `stC8` with a visited-frames entry recording leaf 9 for frame 2, for
the expansion-bookkeeping witness. -/
def stC1 : GenState := { stC8 with visitedFrames := [(2, {9})] }

/-- A state holding one interned callable "foo" with id 0. -/
def stC3 : GenState :=
  { stEmpty with
    graph := { TraceGraph.empty with
      sharedTexts := [⟨0, "foo", SharedTextKind.CALLABLE⟩] }
    nextId := 1 }

/-- 250 identical TITO positions, for the truncation witness. -/
def titos250 : List SourceLocation := List.replicate 250 ⟨1, 2, 3⟩

/-- A fragment whose leaves differ from the final sinks of its issue. -/
def ciC2 : IssueCallInfo :=
  { callee := "mod.sink", port := "sink", location := ⟨1, 1, 2⟩,
    leaves := [("RCE", 2)], titos := [], typeInterval := tiW }

/-- An issue whose final sinks name kind "SqlInjection" while its only
precondition fragment carries leaf kind "RCE". -/
def issueC2 : IssueEntry :=
  { code := 5001, handle := "h2", callable := "mod.bar", filename := "b.py",
    message := "m", line := 1, start := 2, stop := 3, fixInfo := none,
    preconditions := [ciC2], postconditions := [],
    initialSources := [], finalSinks := [("", "SqlInjection", 1)],
    features := [] }

/-- The issue call edge of the end-to-end scenario. -/
def ciW : IssueCallInfo :=
  { callee := "mod.sink", port := "sink", location := ⟨1, 1, 2⟩,
    leaves := [("Sql", 1)], titos := [], typeInterval := tiW }

/-- The issue of the end-to-end scenario: one precondition edge, one
final sink, one feature map with a string and a non-string value. -/
def issueW : IssueEntry :=
  { code := 5009, handle := "h1", callable := "mod.foo", filename := "m.py",
    message := "msg", line := 1, start := 2, stop := 3, fixInfo := none,
    preconditions := [ciW], postconditions := [],
    initialSources := [], finalSinks := [("", "Sql", 1)],
    features := [[("via", FeatureValue.str "tito"),
                  ("always", FeatureValue.other)]] }

/-- The end-to-end input: one issue, empty pools. -/
def inputW : DictEntries := ⟨[issueW], [], []⟩

/-- A configuration for concrete runs. -/
def cfgW : Config := ⟨some "j", none, none, none, none⟩

/-! Basic lemmas about the Python list primitives. -/

theorem pyPop_nil {α : Type} : pyPop ([] : List α) = none := rfl

theorem pyPop_concat {α : Type} (l : List α) (x : α) :
    pyPop (l ++ [x]) = some (x, l) := by
  simp [pyPop]

theorem exists_concat_of_ne_nil {α : Type} {l : List α} (h : l ≠ []) :
    ∃ l' x, l = l' ++ [x] := by
  rcases List.eq_nil_or_concat l with h1 | ⟨L, b, h2⟩
  · exact absurd h1 h
  · exact ⟨L, b, by simpa using h2⟩

/-- C7: a worklist entry whose intersected leaf set is empty is never
expanded: popping it leaves the builder state completely unchanged (no
visited-frames entry, no new frames or associations, no missing-trace
diagnostics) and only removes the entry from the queue.  Hence when a
first-hop frame carries leaves with empty intersection against every
downstream fragment, expansion never proceeds past the first hop. -/
theorem empty_leaf_entry_is_inert (kind : TraceKind) (run : Run)
    (st : GenState) (q : List (TraceFrame × Finset Nat)) (f : TraceFrame) :
    ModelGenerator.expandStep kind run (st, q ++ [(f, ∅)]) = some (st, q) := by
  simp [ModelGenerator.expandStep, pyPop_concat]

/-- C8 (amended): the worklist of `_generate_transitive_trace_frames` is a
stack, not a FIFO queue: one loop iteration always processes the most
recently enqueued entry, and the earlier entries wait unchanged.  The
expansion order is therefore depth-first. -/
theorem expandStep_lifo (kind : TraceKind) (run : Run) (st : GenState)
    (q : List (TraceFrame × Finset Nat)) (e : TraceFrame × Finset Nat) :
    ModelGenerator.expandStep kind run (st, q ++ [e]) =
      (ModelGenerator.expandStep kind run (st, [e])).map
        (fun s' => (s'.1, q ++ s'.2)) := by
  obtain ⟨frame, leaves⟩ := e
  have h1 : pyPop (q ++ [(frame, leaves)]) = some ((frame, leaves), q) :=
    pyPop_concat q (frame, leaves)
  have h2 : pyPop [(frame, leaves)] = some ((frame, leaves), []) :=
    pyPop_concat [] (frame, leaves)
  simp only [ModelGenerator.expandStep, h1, h2]
  by_cases he : leaves = ∅
  · simp [he]
  · simp only [he, if_false]
    cases hv : (st.visitedFrames.find? (fun p => p.1 = frame.id)).map
        (fun p => p.2) with
    | none => simp
    | some vis =>
        by_cases hd : leaves \ vis = ∅
        · simp [hd]
        · simp [hd]

/-- C8 counterexample: the claim says the worklist is processed in FIFO
order.  At this concrete input the first iteration dequeues frame 2 and
enqueues frames 5 and 8 in that order (frame 5 first); FIFO would dequeue
5 before 8, but the loop dequeues 8 first: the observed schedule is
`2, 8, 5`, refuting first-in-first-out dequeuing. -/
theorem expand_order_not_fifo :
    ModelGenerator.expandLog TraceKind.PRECONDITION runW 10
        (stC8, [(cxFrame, {6})]) =
      [(2, [5, 8]), (8, []), (5, [])] := by decide

/-- C4: TITO lists are capped at 200 positions: a raw list longer than 200
is truncated to its first 200 positions and `(filename, callable,
original_count)` is recorded in `big_tito`, exactly once per distinct key
(a key already recorded is not re-added); a list of at most 200 positions
is stored unchanged and the state is untouched; the graph and
visited-frames state are never touched. -/
theorem tito_truncation (st : GenState) (filename callable : String)
    (raw : List SourceLocation) :
    (raw.length > 200 →
      (ModelGenerator._generate_tito st filename raw callable).1 =
        (raw.map (fun t => SourceLocation.mk t.line t.start t.stop)).take 200 ∧
      (ModelGenerator._generate_tito st filename raw callable).2.bigTito =
        insert (filename, callable, raw.length) st.bigTito) ∧
    (raw.length ≤ 200 →
      (ModelGenerator._generate_tito st filename raw callable).1 =
        raw.map (fun t => SourceLocation.mk t.line t.start t.stop) ∧
      (ModelGenerator._generate_tito st filename raw callable).2 = st) ∧
    ((filename, callable, raw.length) ∈ st.bigTito →
      (ModelGenerator._generate_tito st filename raw callable).2.bigTito =
        st.bigTito) ∧
    (ModelGenerator._generate_tito st filename raw callable).2.graph =
      st.graph ∧
    (ModelGenerator._generate_tito st filename raw callable).2.visitedFrames =
      st.visitedFrames := by
  unfold ModelGenerator._generate_tito
  simp only [List.length_map]
  by_cases h : 200 < raw.length
  · by_cases hk : (filename, callable, raw.length) ∈ st.bigTito
    · simp_all [Finset.insert_eq_self.mpr hk]
    · simp_all
  · simp [h, Nat.not_lt.mp h]

set_option maxRecDepth 4096 in
/-- C4 witness: a raw entry with 250 TITO positions stores exactly the
first 200 positions and adds exactly one `big_tito` entry. -/
theorem tito_truncation_witness :
    (ModelGenerator._generate_tito stEmpty "f.py" titos250 "cal").1 =
      (titos250.map (fun t => SourceLocation.mk t.line t.start t.stop)).take 200 ∧
    (ModelGenerator._generate_tito stEmpty "f.py" titos250 "cal").2.bigTito =
      insert ("f.py", "cal", titos250.length) stEmpty.bigTito :=
  (tito_truncation stEmpty "f.py" "cal" titos250).1 (by decide)

/-- C3: when no frames are materialized for the callee key and the pool
holds zero fragments under it, the key is recorded in
`missing_traces[kind]` exactly when the port is not a leaf port; with a
leaf port (such as "sink") nothing is recorded; in both cases the result
list is empty and the graph, visited frames and big-tito state are
untouched, so processing simply continues.  A leaf port is exactly
"leaf", "source", "sink", or any port prefixed "anchor:" or "producer:". -/
theorem missing_trace_detection (kind : TraceKind) (run : Run) (st : GenState)
    (caller_id : Nat) (caller_port : String)
    (hmat : st.graph.hasTraceFramesWithCaller kind caller_id caller_port = false)
    (hpool : (dictPop (st.traceEntries kind)
        (st.graph.getText caller_id, caller_port)).1 = []) :
    (ModelGenerator._get_or_populate_trace_frames kind run st caller_id
      caller_port).1 = [] ∧
    (ModelGenerator._is_leaf_port caller_port = false →
      (ModelGenerator._get_or_populate_trace_frames kind run st caller_id
          caller_port).2.missingTraces kind =
        insert (st.graph.getText caller_id, caller_port)
          (st.missingTraces kind)) ∧
    (ModelGenerator._is_leaf_port caller_port = true →
      (ModelGenerator._get_or_populate_trace_frames kind run st caller_id
          caller_port).2.missingTraces kind = st.missingTraces kind) ∧
    (ModelGenerator._get_or_populate_trace_frames kind run st caller_id
      caller_port).2.graph = st.graph ∧
    (ModelGenerator._get_or_populate_trace_frames kind run st caller_id
      caller_port).2.visitedFrames = st.visitedFrames ∧
    (ModelGenerator._get_or_populate_trace_frames kind run st caller_id
      caller_port).2.bigTito = st.bigTito ∧
    (∀ port : String, ModelGenerator._is_leaf_port port = true ↔
      (port = "leaf" ∨ port = "source" ∨ port = "sink" ∨
        strStartsWith port "anchor:" = true ∨
        strStartsWith port "producer:" = true)) := by
  have hchar : ∀ port : String, ModelGenerator._is_leaf_port port = true ↔
      (port = "leaf" ∨ port = "source" ∨ port = "sink" ∨
        strStartsWith port "anchor:" = true ∨
        strStartsWith port "producer:" = true) := by
    intro port
    simp only [ModelGenerator._is_leaf_port, Bool.or_eq_true, decide_eq_true_eq]
    tauto
  unfold ModelGenerator._get_or_populate_trace_frames
  rw [hmat]
  simp only [Bool.false_eq_true, if_false, hpool, ModelGenerator.mapGenFrames]
  by_cases hl : ModelGenerator._is_leaf_port caller_port = true
  · rw [if_neg (by simp [hl])]
    exact ⟨trivial, fun hfalse => absurd hl (by simp [hfalse]), fun _ => rfl,
      rfl, rfl, rfl, hchar⟩
  · have hl' : ModelGenerator._is_leaf_port caller_port = false := by
      simpa using hl
    rw [if_pos (by simp [hl'])]
    refine ⟨trivial, fun _ => by simp, fun htrue => absurd htrue (by simp [hl']),
      rfl, rfl, rfl, hchar⟩

/-- C3 witness: with callable text "foo" interned as id 0 and an empty
pool, an edge to ("foo", "run") records exactly one missing-trace entry,
while an edge to ("foo", "sink") records none. -/
theorem missing_trace_detection_witness :
    ((ModelGenerator._get_or_populate_trace_frames TraceKind.PRECONDITION runW
        stC3 0 "run").2.missingTraces TraceKind.PRECONDITION =
      insert (stC3.graph.getText 0, "run")
        (stC3.missingTraces TraceKind.PRECONDITION)) ∧
    ((ModelGenerator._get_or_populate_trace_frames TraceKind.PRECONDITION runW
        stC3 0 "sink").2.missingTraces TraceKind.PRECONDITION =
      stC3.missingTraces TraceKind.PRECONDITION) :=
  ⟨(missing_trace_detection TraceKind.PRECONDITION runW stC3 0 "run"
      (by decide) (by decide)).2.1 (by decide),
   (missing_trace_detection TraceKind.PRECONDITION runW stC3 0 "sink"
      (by decide) (by decide)).2.2.1 (by decide)⟩

/-! Lemmas about the Content Store (`_get_shared_text`). -/

theorem getSharedText_some {g : TraceGraph} {k : SharedTextKind} {n : String}
    {t : SharedText} (h : g.getSharedText k n = some t) :
    t ∈ g.sharedTexts ∧ t.kind = k ∧ t.contents = n := by
  unfold TraceGraph.getSharedText at h
  have hm := List.mem_of_find?_eq_some h
  have hp := List.find?_some h
  simp only [decide_eq_true_eq] at hp
  exact ⟨hm, hp.1, hp.2⟩

theorem getSharedText_none {g : TraceGraph} {k : SharedTextKind} {n : String}
    (h : g.getSharedText k n = none) :
    ∀ t ∈ g.sharedTexts, ¬ (t.kind = k ∧ t.contents = n) := by
  intro t ht
  unfold TraceGraph.getSharedText at h
  have := List.find?_eq_none.mp h t ht
  simpa using this

theorem intern_eq_of_found {st : GenState} {k : SharedTextKind} {n : String}
    {t : SharedText}
    (hf : st.graph.getSharedText k (strTake n SHARED_TEXT_LENGTH) = some t) :
    ModelGenerator._get_shared_text st k n = (t, st) := by
  simp only [ModelGenerator._get_shared_text, hf]

theorem intern_eq_of_not_found {st : GenState} {k : SharedTextKind}
    {n : String}
    (hf : st.graph.getSharedText k (strTake n SHARED_TEXT_LENGTH) = none) :
    ModelGenerator._get_shared_text st k n =
      (⟨st.nextId, strTake n SHARED_TEXT_LENGTH, k⟩,
        { st with
          nextId := st.nextId + 1
          graph := st.graph.addSharedText
            ⟨st.nextId, strTake n SHARED_TEXT_LENGTH, k⟩ }) := by
  simp only [ModelGenerator._get_shared_text, hf]

theorem intern_spec (st : GenState) (k : SharedTextKind) (c : String) :
    (ModelGenerator._get_shared_text st k c).1.kind = k ∧
    (ModelGenerator._get_shared_text st k c).1.contents =
      strTake c SHARED_TEXT_LENGTH ∧
    (ModelGenerator._get_shared_text st k c).1 ∈
      (ModelGenerator._get_shared_text st k c).2.graph.sharedTexts ∧
    (∀ t ∈ st.graph.sharedTexts,
      t ∈ (ModelGenerator._get_shared_text st k c).2.graph.sharedTexts) ∧
    st.nextId ≤ (ModelGenerator._get_shared_text st k c).2.nextId := by
  simp only [ModelGenerator._get_shared_text]
  cases hf : st.graph.getSharedText k (strTake c SHARED_TEXT_LENGTH) with
  | some t =>
      obtain ⟨hm, hk, hc⟩ := getSharedText_some hf
      exact ⟨hk, hc, hm, fun t ht => ht, Nat.le_refl _⟩
  | none =>
      refine ⟨rfl, rfl, ?_, ?_, Nat.le_succ _⟩
      · simp [TraceGraph.addSharedText]
      · intro t ht
        simp [TraceGraph.addSharedText, ht]

theorem intern_untouched (st : GenState) (k : SharedTextKind) (c : String) :
    (ModelGenerator._get_shared_text st k c).2.visitedFrames =
      st.visitedFrames ∧
    (ModelGenerator._get_shared_text st k c).2.traceEntries =
      st.traceEntries ∧
    (ModelGenerator._get_shared_text st k c).2.missingTraces =
      st.missingTraces ∧
    (ModelGenerator._get_shared_text st k c).2.bigTito = st.bigTito ∧
    (ModelGenerator._get_shared_text st k c).2.graph.issues =
      st.graph.issues ∧
    (ModelGenerator._get_shared_text st k c).2.graph.issueInstances =
      st.graph.issueInstances ∧
    (ModelGenerator._get_shared_text st k c).2.graph.traceFrames =
      st.graph.traceFrames ∧
    (ModelGenerator._get_shared_text st k c).2.graph.traceFrameLeafAssoc =
      st.graph.traceFrameLeafAssoc ∧
    (ModelGenerator._get_shared_text st k c).2.graph.issueInstanceSharedTextAssoc
      = st.graph.issueInstanceSharedTextAssoc ∧
    (ModelGenerator._get_shared_text st k c).2.graph.issueInstanceTraceFrameAssoc
      = st.graph.issueInstanceTraceFrameAssoc ∧
    (ModelGenerator._get_shared_text st k c).2.graph.fixInfos =
      st.graph.fixInfos := by
  simp only [ModelGenerator._get_shared_text]
  cases hf : st.graph.getSharedText k (strTake c SHARED_TEXT_LENGTH) with
  | some t => exact ⟨rfl, rfl, rfl, rfl, rfl, rfl, rfl, rfl, rfl, rfl, rfl⟩
  | none => exact ⟨rfl, rfl, rfl, rfl, rfl, rfl, rfl, rfl, rfl, rfl, rfl⟩

theorem intern_WF {st : GenState} (hwf : st.WF) (k : SharedTextKind)
    (c : String) :
    (ModelGenerator._get_shared_text st k c).2.WF ∧
    (ModelGenerator._get_shared_text st k c).1.id <
      (ModelGenerator._get_shared_text st k c).2.nextId := by
  obtain ⟨hb, hnd, hku, ha⟩ := hwf
  simp only [ModelGenerator._get_shared_text]
  cases hf : st.graph.getSharedText k (strTake c SHARED_TEXT_LENGTH) with
  | some t =>
      obtain ⟨hm, _, _⟩ := getSharedText_some hf
      exact ⟨⟨hb, hnd, hku, ha⟩, hb t hm⟩
  | none =>
      have hnew := getSharedText_none hf
      refine ⟨⟨?_, ?_, ?_, ?_⟩, Nat.lt_succ_self _⟩
      · intro t ht
        simp only [TraceGraph.addSharedText, List.mem_append,
          List.mem_singleton] at ht
        rcases ht with ht | ht
        · exact Nat.lt_succ_of_lt (hb t ht)
        · subst ht; exact Nat.lt_succ_self _
      · simp only [TraceGraph.addSharedText, List.map_append, List.map_cons,
          List.map_nil]
        rw [List.nodup_append]
        refine ⟨hnd, List.nodup_singleton _, ?_⟩
        intro x hx hx'
        simp only [List.mem_singleton] at hx'
        subst hx'
        obtain ⟨t, ht, hid⟩ := List.mem_map.mp hx
        exact absurd hid (Nat.ne_of_lt (hb t ht))
      · intro t1 h1 t2 h2 hkind hcont
        simp only [TraceGraph.addSharedText, List.mem_append,
          List.mem_singleton] at h1 h2
        rcases h1 with h1 | h1 <;> rcases h2 with h2 | h2
        · exact hku t1 h1 t2 h2 hkind hcont
        · subst h2
          exact absurd ⟨hkind, hcont⟩ (hnew t1 h1)
        · subst h1
          exact absurd ⟨hkind.symm, hcont.symm⟩ (hnew t2 h2)
        · subst h1; subst h2; rfl
      · intro a haa
        exact Nat.lt_succ_of_lt (ha a haa)

theorem stEmpty_WF : stEmpty.WF := by
  refine ⟨?_, ?_, ?_, ?_⟩ <;> simp [stEmpty, TraceGraph.empty, GenState.WF]

/-- C6: interning is a pure keyed lookup.  After `c` is interned under
kind `k`: interning any content that truncates to the same text under the
same kind (in particular `c` itself) returns the same identity, while
interning `c` under a different kind returns a different identity. -/
theorem interning_keyed_lookup (st : GenState) (k k' : SharedTextKind)
    (c c' : String) (hwf : st.WF) :
    ((ModelGenerator._get_shared_text
        (ModelGenerator._get_shared_text st k c).2 k c).1.id =
      (ModelGenerator._get_shared_text st k c).1.id) ∧
    (strTake c SHARED_TEXT_LENGTH = strTake c' SHARED_TEXT_LENGTH →
      (ModelGenerator._get_shared_text
          (ModelGenerator._get_shared_text st k c).2 k c').1.id =
        (ModelGenerator._get_shared_text st k c).1.id) ∧
    (k' ≠ k →
      (ModelGenerator._get_shared_text
          (ModelGenerator._get_shared_text st k c).2 k' c).1.id ≠
        (ModelGenerator._get_shared_text st k c).1.id) := by
  obtain ⟨hk1, hc1, hm1, _, _⟩ := intern_spec st k c
  obtain ⟨hwf1, hid1⟩ := intern_WF hwf k c
  obtain ⟨hb1, hnd1, hku1, _⟩ := hwf1
  have same : ∀ c2 : String,
      strTake c SHARED_TEXT_LENGTH = strTake c2 SHARED_TEXT_LENGTH →
      (ModelGenerator._get_shared_text
          (ModelGenerator._get_shared_text st k c).2 k c2).1.id =
        (ModelGenerator._get_shared_text st k c).1.id := by
    intro c2 htr
    cases hf : (ModelGenerator._get_shared_text st k c).2.graph.getSharedText
        k (strTake c2 SHARED_TEXT_LENGTH) with
    | some t =>
        obtain ⟨hm2, hk2, hc2⟩ := getSharedText_some hf
        have heq : t = (ModelGenerator._get_shared_text st k c).1 :=
          hku1 t hm2 _ hm1 (hk2.trans hk1.symm)
            (by rw [hc2, hc1, htr])
        rw [intern_eq_of_found hf, heq]
    | none =>
        exact absurd (getSharedText_none hf _ hm1 ⟨hk1, by rw [hc1, htr]⟩)
          (fun h => h)
  refine ⟨same c rfl, same c', ?_⟩
  intro hkk
  cases hf : (ModelGenerator._get_shared_text st k c).2.graph.getSharedText
      k' (strTake c SHARED_TEXT_LENGTH) with
  | some t =>
      obtain ⟨hm2, hk2, _⟩ := getSharedText_some hf
      rw [intern_eq_of_found hf]
      intro hideq
      have heq2 : t = (ModelGenerator._get_shared_text st k c).1 :=
        List.inj_on_of_nodup_map hnd1 hm2 hm1 hideq
      rw [heq2] at hk2
      exact hkk (hk2.symm.trans hk1)
  | none =>
      rw [intern_eq_of_not_found hf]
      exact Nat.ne_of_gt hid1

/-- C6 witness: interning (SOURCE, "UserControlled") twice yields the same
identity; interning (SINK, "UserControlled") afterwards yields a
different identity. -/
theorem interning_keyed_lookup_witness :
    ((ModelGenerator._get_shared_text
        (ModelGenerator._get_shared_text stEmpty SharedTextKind.SOURCE
          "UserControlled").2 SharedTextKind.SOURCE "UserControlled").1.id =
      (ModelGenerator._get_shared_text stEmpty SharedTextKind.SOURCE
        "UserControlled").1.id) ∧
    ((ModelGenerator._get_shared_text
        (ModelGenerator._get_shared_text stEmpty SharedTextKind.SOURCE
          "UserControlled").2 SharedTextKind.SINK "UserControlled").1.id ≠
      (ModelGenerator._get_shared_text stEmpty SharedTextKind.SOURCE
        "UserControlled").1.id) :=
  ⟨(interning_keyed_lookup stEmpty SharedTextKind.SOURCE SharedTextKind.SINK
      "UserControlled" "UserControlled" stEmpty_WF).1,
   (interning_keyed_lookup stEmpty SharedTextKind.SOURCE SharedTextKind.SINK
      "UserControlled" "UserControlled" stEmpty_WF).2.2 (by decide)⟩

/-! The extension bundle satisfied by every trace-generation operation. -/

theorem TraceOpExt.refl' (st : GenState) : TraceOpExt st st :=
  ⟨Nat.le_refl _, fun _ ht => ht, ⟨[], by simp, by simp⟩, rfl, rfl, rfl, rfl,
    rfl⟩

theorem TraceOpExt.trans' {a b c : GenState} (h1 : TraceOpExt a b)
    (h2 : TraceOpExt b c) : TraceOpExt a c := by
  obtain ⟨δ1, hδ1, hf1⟩ := h1.assoc_ext
  obtain ⟨δ2, hδ2, hf2⟩ := h2.assoc_ext
  refine ⟨Nat.le_trans h1.nextId_le h2.nextId_le,
    fun t ht => h2.texts_mono t (h1.texts_mono t ht),
    ⟨δ1 ++ δ2, by rw [hδ2, hδ1, List.append_assoc], ?_⟩,
    h2.instances_eq.trans h1.instances_eq,
    h2.instTextAssoc_eq.trans h1.instTextAssoc_eq,
    h2.instFrameAssoc_eq.trans h1.instFrameAssoc_eq,
    h2.issues_eq.trans h1.issues_eq,
    h2.fixInfos_eq.trans h1.fixInfos_eq⟩
  intro x hx
  rcases List.mem_append.mp hx with hx | hx
  · exact hf1 x hx
  · exact Nat.le_trans h1.nextId_le (hf2 x hx)

theorem intern_ext (st : GenState) (k : SharedTextKind) (c : String) :
    TraceOpExt st (ModelGenerator._get_shared_text st k c).2 := by
  obtain ⟨_, _, _, hmono, hle⟩ := intern_spec st k c
  obtain ⟨_, _, _, _, hiss, hinst, _, hassoc, hta, htf, hfix⟩ :=
    intern_untouched st k c
  exact ⟨hle, hmono, ⟨[], by simp [hassoc], by simp⟩, hinst, hta, htf, hiss,
    hfix⟩

theorem tito_state (st : GenState) (f : String) (ts : List SourceLocation)
    (c : String) :
    (ModelGenerator._generate_tito st f ts c).2.graph = st.graph ∧
    (ModelGenerator._generate_tito st f ts c).2.nextId = st.nextId ∧
    (ModelGenerator._generate_tito st f ts c).2.visitedFrames =
      st.visitedFrames ∧
    (ModelGenerator._generate_tito st f ts c).2.traceEntries =
      st.traceEntries ∧
    (ModelGenerator._generate_tito st f ts c).2.missingTraces =
      st.missingTraces := by
  unfold ModelGenerator._generate_tito
  simp only [List.length_map]
  by_cases h : 200 < ts.length
  · by_cases hk : (f, c, ts.length) ∈ st.bigTito
    · simp [h, hk]
    · simp [h, hk]
  · simp [h]

theorem tito_ext (st : GenState) (f : String) (ts : List SourceLocation)
    (c : String) :
    TraceOpExt st (ModelGenerator._generate_tito st f ts c).2 := by
  obtain ⟨hg, hn, _, _, _⟩ := tito_state st f ts c
  exact ⟨Nat.le_of_eq hn.symm, fun t ht => hg ▸ ht, ⟨[], by simp [hg], by simp⟩,
    by rw [hg], by rw [hg], by rw [hg], by rw [hg], by rw [hg]⟩

theorem internLeaves_state (lk : SharedTextKind) (fr : TraceFrame) :
    ∀ (leaves : List (String × Nat)) (acc : Finset Nat) (st : GenState),
    st.nextId ≤
      (ModelGenerator.internLeaves lk fr leaves acc st).2.nextId ∧
    (∀ t ∈ st.graph.sharedTexts,
      t ∈ (ModelGenerator.internLeaves lk fr leaves acc st).2.graph.sharedTexts) ∧
    (∃ δ, (ModelGenerator.internLeaves lk fr leaves acc
          st).2.graph.traceFrameLeafAssoc =
        st.graph.traceFrameLeafAssoc ++ δ ∧ ∀ a ∈ δ, a.1 = fr.id) ∧
    (ModelGenerator.internLeaves lk fr leaves acc st).2.graph.traceFrames =
      st.graph.traceFrames ∧
    (ModelGenerator.internLeaves lk fr leaves acc st).2.graph.issues =
      st.graph.issues ∧
    (ModelGenerator.internLeaves lk fr leaves acc st).2.graph.issueInstances =
      st.graph.issueInstances ∧
    (ModelGenerator.internLeaves lk fr leaves acc
        st).2.graph.issueInstanceSharedTextAssoc =
      st.graph.issueInstanceSharedTextAssoc ∧
    (ModelGenerator.internLeaves lk fr leaves acc
        st).2.graph.issueInstanceTraceFrameAssoc =
      st.graph.issueInstanceTraceFrameAssoc ∧
    (ModelGenerator.internLeaves lk fr leaves acc st).2.graph.fixInfos =
      st.graph.fixInfos ∧
    (ModelGenerator.internLeaves lk fr leaves acc st).2.visitedFrames =
      st.visitedFrames ∧
    (ModelGenerator.internLeaves lk fr leaves acc st).2.traceEntries =
      st.traceEntries ∧
    (ModelGenerator.internLeaves lk fr leaves acc st).2.missingTraces =
      st.missingTraces ∧
    (ModelGenerator.internLeaves lk fr leaves acc st).2.bigTito =
      st.bigTito := by
  intro leaves
  induction leaves with
  | nil =>
      intro acc st
      exact ⟨Nat.le_refl _, fun _ ht => ht,
        ⟨[], by simp [ModelGenerator.internLeaves], by simp⟩, rfl, rfl,
        rfl, rfl, rfl, rfl, rfl, rfl, rfl, rfl⟩
  | cons ld rest ih =>
      intro acc st
      obtain ⟨ld1, ld2⟩ := ld
      simp only [ModelGenerator.internLeaves]
      obtain ⟨hTk, hTc, hTm, hTmono, hle⟩ := intern_spec st lk ld1
      obtain ⟨hv, hpool, hmiss, hbig, hiss, hinst, hfrs, hassoc, hta2, htf2,
        hfix2⟩ := intern_untouched st lk ld1
      obtain ⟨ihn, ihT, ⟨δ, ihδ, ihδf⟩, ihfr, ihi, ihinst, ihta, ihtf, ihfix,
        ihv2, ihp2, ihm2, ihb2⟩ :=
        ih (insert (ModelGenerator._get_shared_text st lk ld1).1.id acc)
          { (ModelGenerator._get_shared_text st lk ld1).2 with
            graph := (ModelGenerator._get_shared_text st lk
              ld1).2.graph.addTraceFrameLeafAssoc fr
              (ModelGenerator._get_shared_text st lk ld1).1 ld2 }
      refine ⟨Nat.le_trans hle ihn, fun t ht => ihT t (hTmono t ht),
        ⟨(fr.id, (ModelGenerator._get_shared_text st lk ld1).1.id, ld2) :: δ,
          ?_, ?_⟩, ?_, ?_, ?_, ?_, ?_, ?_, ?_, ?_, ?_, ?_⟩
      · rw [ihδ]
        simp [TraceGraph.addTraceFrameLeafAssoc, hassoc]
      · intro a ha
        rcases List.mem_cons.mp ha with ha | ha
        · rw [ha]
        · exact ihδf a ha
      · rw [ihfr]; simp [TraceGraph.addTraceFrameLeafAssoc, hfrs]
      · rw [ihi]; simp [TraceGraph.addTraceFrameLeafAssoc, hiss]
      · rw [ihinst]; simp [TraceGraph.addTraceFrameLeafAssoc, hinst]
      · rw [ihta]; simp [TraceGraph.addTraceFrameLeafAssoc, hta2]
      · rw [ihtf]; simp [TraceGraph.addTraceFrameLeafAssoc, htf2]
      · rw [ihfix]; simp [TraceGraph.addTraceFrameLeafAssoc, hfix2]
      · rw [ihv2]; simp [hv]
      · rw [ihp2]; simp [hpool]
      · rw [ihm2]; simp [hmiss]
      · rw [ihb2]; simp [hbig]

theorem raw_frame_ext (kind : TraceKind) (run : Run) (st : GenState)
    (fn ca cp ce cep : String) (loc : SourceLocation)
    (ts : List SourceLocation) (leaves : List (String × Nat))
    (ti : TypeInterval) :
    TraceOpExt st (ModelGenerator._generate_raw_trace_frame kind run st fn ca
      cp ce cep loc ts leaves ti).2 ∧
    st.nextId ≤ (ModelGenerator._generate_raw_trace_frame kind run st fn ca
      cp ce cep loc ts leaves ti).1.1.id ∧
    (ModelGenerator._generate_raw_trace_frame kind run st fn ca cp ce cep loc
      ts leaves ti).1.1.id < (ModelGenerator._generate_raw_trace_frame kind
      run st fn ca cp ce cep loc ts leaves ti).2.nextId ∧
    (ModelGenerator._generate_raw_trace_frame kind run st fn ca cp ce cep loc
      ts leaves ti).2.graph.traceFrames = st.graph.traceFrames ++
      [(ModelGenerator._generate_raw_trace_frame kind run st fn ca cp ce cep
        loc ts leaves ti).1.1] ∧
    (ModelGenerator._generate_raw_trace_frame kind run st fn ca cp ce cep loc
      ts leaves ti).2.visitedFrames = st.visitedFrames ∧
    (ModelGenerator._generate_raw_trace_frame kind run st fn ca cp ce cep loc
      ts leaves ti).2.traceEntries = st.traceEntries ∧
    (ModelGenerator._generate_raw_trace_frame kind run st fn ca cp ce cep loc
      ts leaves ti).2.missingTraces = st.missingTraces ∧
    (ModelGenerator._generate_raw_trace_frame kind run st fn ca cp ce cep loc
      ts leaves ti).2.bigTito = st.bigTito ∧
    (ModelGenerator._generate_raw_trace_frame kind run st fn ca cp ce cep loc
      ts leaves ti).1.1.callerPort = cp ∧
    (ModelGenerator._generate_raw_trace_frame kind run st fn ca cp ce cep loc
      ts leaves ti).1.1.calleePort = cep ∧
    (ModelGenerator._generate_raw_trace_frame kind run st fn ca cp ce cep loc
      ts leaves ti).1.1.kind = kind := by
  simp only [ModelGenerator._generate_raw_trace_frame]
  generalize hp1 : ModelGenerator._get_shared_text st SharedTextKind.CALLABLE
    ca = p1
  generalize hp2 : ModelGenerator._get_shared_text p1.2
    SharedTextKind.CALLABLE ce = p2
  generalize hp3 : ModelGenerator._get_shared_text p2.2
    SharedTextKind.FILENAME fn = p3
  have E1 : TraceOpExt st p1.2 := hp1 ▸ intern_ext st SharedTextKind.CALLABLE ca
  have E2 : TraceOpExt p1.2 p2.2 :=
    hp2 ▸ intern_ext p1.2 SharedTextKind.CALLABLE ce
  have E3 : TraceOpExt p2.2 p3.2 :=
    hp3 ▸ intern_ext p2.2 SharedTextKind.FILENAME fn
  have E123 : TraceOpExt st p3.2 :=
    TraceOpExt.trans' (TraceOpExt.trans' E1 E2) E3
  have U1 := hp1 ▸ intern_untouched st SharedTextKind.CALLABLE ca
  have U2 := hp2 ▸ intern_untouched p1.2 SharedTextKind.CALLABLE ce
  have U3 := hp3 ▸ intern_untouched p2.2 SharedTextKind.FILENAME fn
  set tf : TraceFrame :=
    { id := p3.2.nextId, kind := kind, callerId := p1.1.id, callerPort := cp,
      calleeId := p2.1.id, calleePort := cep,
      calleeLocation := SourceLocation.mk loc.line loc.start loc.stop
      filenameId := p3.1.id, titos := ts, runId := run.id,
      preservesTypeContext := (ModelGenerator._get_interval ti).2.2,
      typeIntervalLower := (ModelGenerator._get_interval ti).1,
      typeIntervalUpper := (ModelGenerator._get_interval ti).2.1 } with htf
  set st4 : GenState :=
    { graph := p3.2.graph, nextId := p3.2.nextId + 1,
      visitedFrames := p3.2.visitedFrames,
      traceEntries := p3.2.traceEntries,
      missingTraces := p3.2.missingTraces, bigTito := p3.2.bigTito } with hst4
  obtain ⟨ihn, ihT, ⟨δ, ihδ, ihδf⟩, ihfr, ihi, ihinst, ihta, ihtf2, ihfix,
    ihv2, ihp2, ihm2, ihb2⟩ :=
    internLeaves_state (ModelGenerator.leafKindOf kind) tf leaves ∅ st4
  obtain ⟨δ0, hδ0, hδ0f⟩ := E123.assoc_ext
  have htfid : tf.id = p3.2.nextId := rfl
  have hn4 : st4.nextId = p3.2.nextId + 1 := rfl
  refine ⟨⟨?_, ?_, ⟨δ0 ++ δ, ?_, ?_⟩, ?_, ?_, ?_, ?_, ?_⟩, ?_, ?_, ?_, ?_,
    ?_, ?_, ?_, trivial, trivial, trivial⟩
  · exact Nat.le_trans E123.nextId_le (Nat.le_trans (Nat.le_succ _) ihn)
  · intro t ht
    exact ihT t (E123.texts_mono t ht)
  · show (ModelGenerator.internLeaves (ModelGenerator.leafKindOf kind) tf
      leaves ∅ st4).2.graph.traceFrameLeafAssoc =
      st.graph.traceFrameLeafAssoc ++ (δ0 ++ δ)
    rw [ihδ]
    show p3.2.graph.traceFrameLeafAssoc ++ δ =
      st.graph.traceFrameLeafAssoc ++ (δ0 ++ δ)
    rw [hδ0, List.append_assoc]
  · intro a ha
    rcases List.mem_append.mp ha with ha | ha
    · exact hδ0f a ha
    · rw [ihδf a ha, htfid]
      exact E123.nextId_le
  · show (ModelGenerator.internLeaves (ModelGenerator.leafKindOf kind) tf
      leaves ∅ st4).2.graph.issueInstances = st.graph.issueInstances
    rw [ihinst]
    exact E123.instances_eq
  · show (ModelGenerator.internLeaves (ModelGenerator.leafKindOf kind) tf
      leaves ∅ st4).2.graph.issueInstanceSharedTextAssoc =
      st.graph.issueInstanceSharedTextAssoc
    rw [ihta]
    exact E123.instTextAssoc_eq
  · show (ModelGenerator.internLeaves (ModelGenerator.leafKindOf kind) tf
      leaves ∅ st4).2.graph.issueInstanceTraceFrameAssoc =
      st.graph.issueInstanceTraceFrameAssoc
    rw [ihtf2]
    exact E123.instFrameAssoc_eq
  · show (ModelGenerator.internLeaves (ModelGenerator.leafKindOf kind) tf
      leaves ∅ st4).2.graph.issues = st.graph.issues
    rw [ihi]
    exact E123.issues_eq
  · show (ModelGenerator.internLeaves (ModelGenerator.leafKindOf kind) tf
      leaves ∅ st4).2.graph.fixInfos = st.graph.fixInfos
    rw [ihfix]
    exact E123.fixInfos_eq
  · exact E123.nextId_le
  · show tf.id < (ModelGenerator.internLeaves (ModelGenerator.leafKindOf kind)
      tf leaves ∅ st4).2.nextId
    exact Nat.lt_of_lt_of_le (Nat.lt_succ_self _) ihn
  · show (ModelGenerator.internLeaves (ModelGenerator.leafKindOf kind) tf
      leaves ∅ st4).2.graph.traceFrames ++ [tf] =
      st.graph.traceFrames ++ [tf]
    rw [ihfr]
    show p3.2.graph.traceFrames ++ [tf] = st.graph.traceFrames ++ [tf]
    rw [U3.2.2.2.2.2.2.1, U2.2.2.2.2.2.2.1, U1.2.2.2.2.2.2.1]
  · show (ModelGenerator.internLeaves (ModelGenerator.leafKindOf kind) tf
      leaves ∅ st4).2.visitedFrames = st.visitedFrames
    rw [ihv2]
    show p3.2.visitedFrames = st.visitedFrames
    rw [U3.1, U2.1, U1.1]
  · show (ModelGenerator.internLeaves (ModelGenerator.leafKindOf kind) tf
      leaves ∅ st4).2.traceEntries = st.traceEntries
    rw [ihp2]
    show p3.2.traceEntries = st.traceEntries
    rw [U3.2.1, U2.2.1, U1.2.1]
  · show (ModelGenerator.internLeaves (ModelGenerator.leafKindOf kind) tf
      leaves ∅ st4).2.missingTraces = st.missingTraces
    rw [ihm2]
    show p3.2.missingTraces = st.missingTraces
    rw [U3.2.2.1, U2.2.2.1, U1.2.2.1]
  · show (ModelGenerator.internLeaves (ModelGenerator.leafKindOf kind) tf
      leaves ∅ st4).2.bigTito = st.bigTito
    rw [ihb2]
    show p3.2.bigTito = st.bigTito
    rw [U3.2.2.2.1, U2.2.2.2.1, U1.2.2.2.1]

theorem gen_frame_ext (kind : TraceKind) (run : Run) (st : GenState)
    (e : PoolEntry) :
    TraceOpExt st (ModelGenerator._generate_trace_frame kind run st e).2 ∧
    st.nextId ≤ (ModelGenerator._generate_trace_frame kind run st e).1.1.id ∧
    (ModelGenerator._generate_trace_frame kind run st e).1.1.id <
      (ModelGenerator._generate_trace_frame kind run st e).2.nextId ∧
    (ModelGenerator._generate_trace_frame kind run st e).2.graph.traceFrames =
      st.graph.traceFrames ++
        [(ModelGenerator._generate_trace_frame kind run st e).1.1] ∧
    (ModelGenerator._generate_trace_frame kind run st e).2.visitedFrames =
      st.visitedFrames ∧
    (ModelGenerator._generate_trace_frame kind run st e).2.traceEntries =
      st.traceEntries ∧
    (ModelGenerator._generate_trace_frame kind run st e).2.missingTraces =
      st.missingTraces := by
  simp only [ModelGenerator._generate_trace_frame]
  generalize hpt : ModelGenerator._generate_tito st e.filename e.titos
    e.caller = pt
  obtain ⟨hg, hn, hv, hp, hm⟩ := hpt ▸ tito_state st e.filename e.titos e.caller
  have Et : TraceOpExt st pt.2 := hpt ▸ tito_ext st e.filename e.titos e.caller
  obtain ⟨Er, hle, hlt, hfr, hv2, hp2, hm2, _, _, _, _⟩ :=
    raw_frame_ext kind run pt.2 e.filename e.caller e.callerPort e.callee
      e.calleePort e.calleeLocation pt.1
      (if (e.leaves).getD [] = [] then
        if kind = TraceKind.POSTCONDITION then e.sources else e.sinks
      else (e.leaves).getD []) e.typeInterval
  refine ⟨TraceOpExt.trans' Et Er, ?_, hlt, ?_, ?_, ?_, ?_⟩
  · exact Nat.le_trans (Nat.le_of_eq hn.symm) hle
  · rw [hfr, hg]
  · rw [hv2, hv]
  · rw [hp2, hp]
  · rw [hm2, hm]

theorem mapGenFrames_ext (kind : TraceKind) (run : Run) :
    ∀ (es : List PoolEntry) (st : GenState),
    TraceOpExt st (ModelGenerator.mapGenFrames kind run es st).2 ∧
    (∃ δf, (ModelGenerator.mapGenFrames kind run es st).2.graph.traceFrames =
      st.graph.traceFrames ++ δf ∧ δf.length = es.length) ∧
    (∀ p ∈ (ModelGenerator.mapGenFrames kind run es st).1,
      p.1 ∈ (ModelGenerator.mapGenFrames kind run es st).2.graph.traceFrames) ∧
    (ModelGenerator.mapGenFrames kind run es st).1.length = es.length ∧
    (ModelGenerator.mapGenFrames kind run es st).2.visitedFrames =
      st.visitedFrames ∧
    (ModelGenerator.mapGenFrames kind run es st).2.traceEntries =
      st.traceEntries ∧
    (ModelGenerator.mapGenFrames kind run es st).2.missingTraces =
      st.missingTraces := by
  intro es
  induction es with
  | nil =>
      intro st
      exact ⟨TraceOpExt.refl' st, ⟨[], by simp [ModelGenerator.mapGenFrames],
        by simp⟩, by simp [ModelGenerator.mapGenFrames], rfl, rfl, rfl, rfl⟩
  | cons e es ih =>
      intro st
      simp only [ModelGenerator.mapGenFrames]
      generalize hpe : ModelGenerator._generate_trace_frame kind run st e = pe
      obtain ⟨Ee, hle, hlt, hfr, hv, hp, hm⟩ :=
        hpe ▸ gen_frame_ext kind run st e
      obtain ⟨Eih, ⟨δf, hδf, hδflen⟩, hmem, hlen, ihv, ihp, ihm⟩ := ih pe.2
      refine ⟨TraceOpExt.trans' Ee Eih, ⟨[pe.1.1] ++ δf, ?_, ?_⟩, ?_, ?_, ?_,
        ?_, ?_⟩
      · rw [hδf, hfr, List.append_assoc]
      · simp [hδflen]
      · intro p hp2
        rcases List.mem_cons.mp hp2 with hp2 | hp2
        · rw [hp2, hδf]
          exact List.mem_append_left _ (by rw [hfr]; simp)
        · exact hmem p hp2
      · simp [hlen]
      · rw [ihv, hv]
      · rw [ihp, hp]
      · rw [ihm, hm]

theorem sumLen_filter_le (pred : PoolKey × List PoolEntry → Bool) :
    ∀ (l : List (PoolKey × List PoolEntry)),
    ((l.filter pred).map (fun p => p.2.length)).sum ≤
      (l.map (fun p => p.2.length)).sum := by
  intro l
  induction l with
  | nil => simp
  | cons a l ih =>
      by_cases ha : pred a
      · simp [List.filter_cons, ha]
        omega
      · simp [List.filter_cons, ha]
        omega

theorem dictPop_size (pool : List (PoolKey × List PoolEntry)) (key : PoolKey) :
    ((dictPop pool key).2.map (fun p => p.2.length)).sum +
      (dictPop pool key).1.length ≤ (pool.map (fun p => p.2.length)).sum := by
  induction pool with
  | nil => simp [dictPop]
  | cons a rest ih =>
      obtain ⟨k, es⟩ := a
      by_cases hk : k = key
      · subst hk
        simp [dictPop] at ih ⊢
        have h2 := sumLen_filter_le (fun p => !decide (p.1 = k)) rest
        omega
      · simp [dictPop, hk] at ih ⊢
        omega

theorem getOrPop_ext (kind : TraceKind) (run : Run) (st : GenState)
    (cid : Nat) (cport : String) :
    TraceOpExt st
      (ModelGenerator._get_or_populate_trace_frames kind run st cid cport).2 ∧
    (ModelGenerator._get_or_populate_trace_frames kind run st cid
      cport).2.visitedFrames = st.visitedFrames ∧
    (∃ δf, (ModelGenerator._get_or_populate_trace_frames kind run st cid
        cport).2.graph.traceFrames = st.graph.traceFrames ++ δf ∧
      poolSize (ModelGenerator._get_or_populate_trace_frames kind run st cid
        cport).2 kind + δf.length ≤ poolSize st kind) ∧
    (∀ p ∈ (ModelGenerator._get_or_populate_trace_frames kind run st cid
        cport).1,
      p.1 ∈ (ModelGenerator._get_or_populate_trace_frames kind run st cid
        cport).2.graph.traceFrames) := by
  simp only [ModelGenerator._get_or_populate_trace_frames]
  by_cases hmat : st.graph.hasTraceFramesWithCaller kind cid cport = true
  · rw [if_pos hmat]
    refine ⟨TraceOpExt.refl' st, rfl, ⟨[], by simp, by simp⟩, ?_⟩
    intro p hp
    obtain ⟨f, hf, hfp⟩ := List.mem_map.mp hp
    rw [← hfp]
    exact List.mem_of_mem_filter hf
  · rw [if_neg hmat]
    generalize hpop : dictPop (st.traceEntries kind)
      (st.graph.getText cid, cport) = popped
    obtain ⟨Em, ⟨δf, hδf, hδflen⟩, hmem, hlen, ihv, ihp, ihm⟩ :=
      mapGenFrames_ext kind run popped.1
        { st with traceEntries := fun k =>
            if k = kind then popped.2 else st.traceEntries k }
    have E1 : TraceOpExt st
        { st with traceEntries := fun k =>
            if k = kind then popped.2 else st.traceEntries k } :=
      ⟨Nat.le_refl _, fun _ ht => ht, ⟨[], by simp, by simp⟩, rfl, rfl, rfl,
        rfl, rfl⟩
    have hsize := dictPop_size (st.traceEntries kind)
      (st.graph.getText cid, cport)
    rw [hpop] at hsize
    have hps1 : poolSize
        { st with traceEntries := fun k =>
            if k = kind then popped.2 else st.traceEntries k } kind =
        ((popped.2.map (fun p => p.2.length)).sum) := by
      simp [poolSize]
    have hps2 : poolSize (ModelGenerator.mapGenFrames kind run popped.1
        { st with traceEntries := fun k =>
            if k = kind then popped.2 else st.traceEntries k }).2 kind +
        δf.length ≤ poolSize st kind := by
      have h1 : poolSize (ModelGenerator.mapGenFrames kind run popped.1
          { st with traceEntries := fun k =>
              if k = kind then popped.2 else st.traceEntries k }).2 kind =
          (popped.2.map (fun p => p.2.length)).sum := by
        simp only [poolSize, ihp]
        simp
      have h2 : poolSize st kind =
          ((st.traceEntries kind).map (fun p => p.2.length)).sum := rfl
      rw [h1, hδflen, h2]
      omega
    split
    · exact ⟨TraceOpExt.trans' (TraceOpExt.trans' E1 Em)
        ⟨Nat.le_refl _, fun _ ht => ht, ⟨[], by simp, by simp⟩, rfl, rfl, rfl,
          rfl, rfl⟩, ihv, ⟨δf, hδf, hps2⟩, hmem⟩
    · exact ⟨TraceOpExt.trans' E1 Em, ihv, ⟨δf, hδf, hps2⟩, hmem⟩

theorem expandStep_ext (kind : TraceKind) (run : Run)
    (s s' : GenState × List (TraceFrame × Finset Nat))
    (h : ModelGenerator.expandStep kind run s = some s') :
    TraceOpExt s.1 s'.1 := by
  obtain ⟨st, q⟩ := s
  simp only [ModelGenerator.expandStep] at h
  cases hq : pyPop q with
  | none => rw [hq] at h; exact absurd h (by simp)
  | some pr =>
      obtain ⟨⟨frame, leaves⟩, rest⟩ := pr
      rw [hq] at h
      simp only [] at h
      by_cases he : leaves = ∅
      · rw [if_pos he] at h
        obtain rfl : (st, rest) = s' := Option.some.inj h
        exact TraceOpExt.refl' st
      · rw [if_neg he] at h
        have hvupd : ∀ v, TraceOpExt st { st with visitedFrames := v } :=
          fun v => ⟨Nat.le_refl _, fun _ ht => ht, ⟨[], by simp, by simp⟩,
            rfl, rfl, rfl, rfl, rfl⟩
        cases hv : (st.visitedFrames.find? (fun p => p.1 = frame.id)).map
            (fun p => p.2) with
        | some vis =>
            rw [hv] at h
            simp only [] at h
            by_cases hd : leaves \ vis = ∅
            · rw [if_pos hd] at h
              obtain rfl : (st, rest) = s' := Option.some.inj h
              exact TraceOpExt.refl' st
            · rw [if_neg hd] at h
              obtain rfl := (Option.some.inj h).symm
              exact TraceOpExt.trans' (hvupd _)
                (getOrPop_ext kind run _ frame.calleeId frame.calleePort).1
        | none =>
            rw [hv] at h
            simp only [] at h
            obtain rfl := (Option.some.inj h).symm
            exact TraceOpExt.trans' (hvupd _)
              (getOrPop_ext kind run _ frame.calleeId frame.calleePort).1

theorem expandLoop_ext (kind : TraceKind) (run : Run) :
    ∀ (fuel : Nat) (s : GenState × List (TraceFrame × Finset Nat))
      (st' : GenState),
    ModelGenerator.expandLoop kind run fuel s = some st' →
    TraceOpExt s.1 st' := by
  intro fuel
  induction fuel with
  | zero => intro s st' h; exact absurd h (by simp [ModelGenerator.expandLoop])
  | succ fuel ih =>
      intro s st' h
      simp only [ModelGenerator.expandLoop] at h
      cases hs : ModelGenerator.expandStep kind run s with
      | none =>
          rw [hs] at h
          obtain rfl : s.1 = st' := Option.some.inj h
          exact TraceOpExt.refl' _
      | some s2 =>
          rw [hs] at h
          exact TraceOpExt.trans' (expandStep_ext kind run s s2 hs) (ih s2 st' h)

theorem issue_traces_ext (kind : TraceKind) (run : Run) (fuel : Nat)
    (st : GenState) (issue : IssueEntry) (ci : IssueCallInfo)
    (tf : TraceFrame) (st' : GenState)
    (h : ModelGenerator._generate_issue_traces kind run fuel st issue ci =
      some (tf, st')) :
    TraceOpExt st st' := by
  simp only [ModelGenerator._generate_issue_traces] at h
  generalize hpt : ModelGenerator._generate_tito st issue.filename ci.titos
    issue.callable = pt at h
  generalize hpf : ModelGenerator._generate_raw_trace_frame kind run pt.2
    issue.filename issue.callable "root" ci.callee ci.port ci.location pt.1
    ci.leaves ci.typeInterval = pf at h
  have Et : TraceOpExt st pt.2 :=
    hpt ▸ tito_ext st issue.filename ci.titos issue.callable
  have Ef : TraceOpExt pt.2 pf.2 :=
    (hpf ▸ (raw_frame_ext kind run pt.2 issue.filename issue.callable "root"
      ci.callee ci.port ci.location pt.1 ci.leaves ci.typeInterval)).1
  cases hx : ModelGenerator._generate_transitive_trace_frames run fuel pf.2
      pf.1.1 pf.1.2 with
  | none => rw [hx] at h; exact absurd h (by simp)
  | some st2 =>
      rw [hx] at h
      simp only [Option.some.injEq, Prod.mk.injEq] at h
      obtain ⟨-, rfl⟩ := h
      exact TraceOpExt.trans' (TraceOpExt.trans' Et Ef)
        (expandLoop_ext pf.1.1.kind run fuel (pf.2, [(pf.1.1, pf.1.2)]) st2 hx)

theorem issue_traces_fold_ext (kind : TraceKind) (run : Run) (fuel : Nat)
    (issue : IssueEntry) :
    ∀ (cs : List IssueCallInfo) (st : GenState) (tfs : List TraceFrame)
      (st' : GenState),
    ModelGenerator.genIssueTracesFold kind run fuel issue cs st =
      some (tfs, st') →
    TraceOpExt st st' := by
  intro cs
  induction cs with
  | nil =>
      intro st tfs st' h
      simp only [ModelGenerator.genIssueTracesFold, Option.some.injEq,
        Prod.mk.injEq] at h
      obtain ⟨-, rfl⟩ := h
      exact TraceOpExt.refl' st
  | cons c cs ih =>
      intro st tfs st' h
      simp only [ModelGenerator.genIssueTracesFold] at h
      cases h1 : ModelGenerator._generate_issue_traces kind run fuel st
          issue c with
      | none => rw [h1] at h; exact absurd h (by simp)
      | some p =>
          rw [h1] at h
          simp only [] at h
          cases h2 : ModelGenerator.genIssueTracesFold kind run fuel issue cs
              p.2 with
          | none => rw [h2] at h; exact absurd h (by simp)
          | some p2 =>
              rw [h2] at h
              simp only [Option.some.injEq, Prod.mk.injEq] at h
              obtain ⟨-, rfl⟩ := h
              exact TraceOpExt.trans'
                (issue_traces_ext kind run fuel st issue c p.1 p.2
                  (by rw [h1]))
                (ih p.2 p2.1 p2.2 (by rw [h2]))

/-! Characterization of `_get_minimum_trace_length`. -/

theorem minFold_char :
    ∀ (l : List Nat) (m : Nat),
    ∃ m', minFold l (some m) = some m' ∧ m' ≤ m ∧
      (m' = m ∨ m' ∈ l) ∧ ∀ d ∈ l, m' ≤ d := by
  intro l
  induction l with
  | nil => exact fun m => ⟨m, rfl, Nat.le_refl _, Or.inl rfl, by simp⟩
  | cons d l ih =>
      intro m
      by_cases hmd : m > d
      · obtain ⟨m', h1, h2, h3, h4⟩ := ih d
        refine ⟨m', ?_, Nat.le_trans h2 (Nat.le_of_lt hmd), ?_, ?_⟩
        · simpa [minFold, hmd] using h1
        · rcases h3 with h3 | h3
          · exact Or.inr (h3 ▸ List.mem_cons_self d l)
          · exact Or.inr (List.mem_cons_of_mem d h3)
        · intro d' hd'
          rcases List.mem_cons.mp hd' with hd' | hd'
          · exact hd' ▸ h2
          · exact h4 d' hd'
      · obtain ⟨m', h1, h2, h3, h4⟩ := ih m
        refine ⟨m', ?_, h2, ?_, ?_⟩
        · simpa [minFold, hmd] using h1
        · rcases h3 with h3 | h3
          · exact Or.inl h3
          · exact Or.inr (List.mem_cons_of_mem d h3)
        · intro d' hd'
          rcases List.mem_cons.mp hd' with hd' | hd'
          · exact hd' ▸ Nat.le_trans h2 (Nat.le_of_not_lt hmd)
          · exact h4 d' hd'

theorem minFold_cons_none (d : Nat) (l : List Nat) :
    minFold (d :: l) none =
      minFold l (some d) := rfl

theorem minFold_append (l1 l2 : List Nat) (acc : Option Nat) :
    minFold (l1 ++ l2) acc =
      minFold l2 (minFold l1 acc) := by
  simp [minFold, List.foldl_append]

theorem inner_fold_eq (lv : List (String × Nat)) :
    ∀ acc : Option Nat,
    lv.foldl
      (fun acc ld =>
        match acc with
        | none => some ld.2
        | some m => if m > ld.2 then some ld.2 else acc)
      acc = minFold (lv.map (fun ld => ld.2)) acc := by
  induction lv with
  | nil => intro acc; rfl
  | cons a lv ih =>
      intro acc
      simp only [List.foldl_cons, List.map_cons, minFold]
      exact ih _

theorem mtl_eq_minFold (entries : List IssueCallInfo) :
    ModelGenerator._get_minimum_trace_length entries =
      (minFold (directDepths entries)
        none).getD 0 := by
  have outer : ∀ (es : List IssueCallInfo) (acc : Option Nat),
      es.foldl
        (fun acc e => e.leaves.foldl
          (fun acc ld =>
            match acc with
            | none => some ld.2
            | some m => if m > ld.2 then some ld.2 else acc)
          acc)
        acc = minFold (directDepths es) acc := by
    intro es
    induction es with
    | nil => intro acc; simp [directDepths,
        minFold]
    | cons e es ih =>
        intro acc
        simp only [List.foldl_cons]
        rw [ih, inner_fold_eq]
        rw [show directDepths (e :: es) =
          e.leaves.map (fun ld => ld.2) ++ directDepths es by
          simp [directDepths]]
        rw [minFold_append]
  unfold ModelGenerator._get_minimum_trace_length
  rw [outer]

theorem mtl_char (entries : List IssueCallInfo) :
    (∀ d ∈ directDepths entries,
      ModelGenerator._get_minimum_trace_length entries ≤ d) ∧
    (directDepths entries = [] →
      ModelGenerator._get_minimum_trace_length entries = 0) ∧
    (directDepths entries ≠ [] →
      ModelGenerator._get_minimum_trace_length entries ∈
        directDepths entries) := by
  rw [mtl_eq_minFold]
  cases hdd : directDepths entries with
  | nil => simp [minFold]
  | cons d l =>
      obtain ⟨m', h1, h2, h3, h4⟩ := minFold_char l d
      rw [minFold_cons_none, h1]
      simp only [Option.getD_some]
      refine ⟨?_, by simp, fun _ => ?_⟩
      · intro d' hd'
        rcases List.mem_cons.mp hd' with hd' | hd'
        · exact hd' ▸ h2
        · exact h4 d' hd'
      · rcases h3 with h3 | h3
        · exact h3 ▸ List.mem_cons_self d l
        · exact List.mem_cons_of_mem d h3

/-! Characterization of the association-building loops of
`_generate_issue_tail`. -/

theorem internSet_char (k : SharedTextKind) :
    ∀ (ns : List String) (st : GenState),
    (ModelGenerator.internSet k ns st).2.graph.issueInstances =
      st.graph.issueInstances ∧
    (ModelGenerator.internSet k ns st).2.graph.issueInstanceSharedTextAssoc =
      st.graph.issueInstanceSharedTextAssoc ∧
    (∀ t ∈ st.graph.sharedTexts,
      t ∈ (ModelGenerator.internSet k ns st).2.graph.sharedTexts) := by
  intro ns
  induction ns with
  | nil => exact fun st => ⟨rfl, rfl, fun _ ht => ht⟩
  | cons n ns ih =>
      intro st
      simp only [ModelGenerator.internSet]
      obtain ⟨ih1, ih2, ih3⟩ :=
        ih (ModelGenerator._get_shared_text st k n).2
      obtain ⟨_, _, _, _, _, hinst, _, _, hta, _, _⟩ := intern_untouched st k n
      obtain ⟨_, _, _, hmono, _⟩ := intern_spec st k n
      exact ⟨ih1.trans hinst, ih2.trans hta,
        fun t ht => ih3 t (hmono t ht)⟩

theorem addTextAssocs_char (inst : IssueInstance) :
    ∀ (ids : List Nat) (st : GenState),
    ModelGenerator.addTextAssocs inst ids st =
      { st with graph := { st.graph with
          issueInstanceSharedTextAssoc :=
            st.graph.issueInstanceSharedTextAssoc ++
              ids.map (fun i => (inst.id, i)) } } := by
  intro ids
  induction ids with
  | nil =>
      intro st
      simp [ModelGenerator.addTextAssocs]
  | cons i ids ih =>
      intro st
      simp only [ModelGenerator.addTextAssocs, List.foldl_cons] at ih ⊢
      rw [show (List.foldl _ _ ids : GenState) = _ from ih _]
      simp

theorem tfAssocFold_char (inst : IssueInstance) :
    ∀ (tfs : List TraceFrame) (st : GenState),
    tfs.foldl
      (fun st tf =>
        { st with
          graph := st.graph.addIssueInstanceTraceFrameAssoc inst tf }) st =
      { st with graph := { st.graph with
          issueInstanceTraceFrameAssoc :=
            st.graph.issueInstanceTraceFrameAssoc ++
              tfs.map (fun tf => (inst.id, tf.id)) } } := by
  intro tfs
  induction tfs with
  | nil =>
      intro st
      simp
  | cons tf tfs ih =>
      intro st
      simp only [List.foldl_cons]
      rw [ih]
      simp [TraceGraph.addIssueInstanceTraceFrameAssoc]

theorem addFeatureAssocs_char (inst : IssueInstance) :
    ∀ (fs : List String) (st : GenState),
    (ModelGenerator.addFeatureAssocs inst fs st).graph.issueInstances =
      st.graph.issueInstances ∧
    (ModelGenerator.addFeatureAssocs inst fs
      st).graph.issueInstanceTraceFrameAssoc =
      st.graph.issueInstanceTraceFrameAssoc ∧
    (∃ block,
      (ModelGenerator.addFeatureAssocs inst fs
        st).graph.issueInstanceSharedTextAssoc =
        st.graph.issueInstanceSharedTextAssoc ++ block ∧
      List.Forall₂
        (fun (a : Nat × Nat) (f : String) => a.1 = inst.id ∧
          ∃ t ∈ (ModelGenerator.addFeatureAssocs inst fs
            st).graph.sharedTexts,
            t.id = a.2 ∧ t.kind = SharedTextKind.FEATURE ∧
            t.contents = strTake f SHARED_TEXT_LENGTH)
        block fs) ∧
    (∀ t ∈ st.graph.sharedTexts,
      t ∈ (ModelGenerator.addFeatureAssocs inst fs st).graph.sharedTexts) := by
  intro fs
  induction fs with
  | nil =>
      exact fun st => ⟨rfl, rfl,
        ⟨[], by simp [ModelGenerator.addFeatureAssocs], List.Forall₂.nil⟩,
        fun _ ht => ht⟩
  | cons f fs ih =>
      intro st
      simp only [ModelGenerator.addFeatureAssocs]
      generalize hp : ModelGenerator._get_shared_text st
        SharedTextKind.FEATURE f = p
      obtain ⟨hk, hc, hm, hmono, _⟩ :=
        hp ▸ intern_spec st SharedTextKind.FEATURE f
      obtain ⟨_, _, _, _, _, hinst, _, _, hta, htf, _⟩ :=
        hp ▸ intern_untouched st SharedTextKind.FEATURE f
      obtain ⟨ih1, ih2, ⟨block, ihb, ihf⟩, ih3⟩ :=
        ih { p.2 with
          graph := p.2.graph.addIssueInstanceSharedTextAssoc inst p.1 }
      refine ⟨?_, ?_, ⟨(inst.id, p.1.id) :: block, ?_, ?_⟩, ?_⟩
      · rw [ih1]
        simpa [TraceGraph.addIssueInstanceSharedTextAssoc] using hinst
      · rw [ih2]
        simp [TraceGraph.addIssueInstanceSharedTextAssoc, htf]
      · rw [ihb]
        simp [TraceGraph.addIssueInstanceSharedTextAssoc, hta]
      · refine List.Forall₂.cons ⟨rfl, ?_⟩ ihf
        refine ⟨p.1, ?_, rfl, hk, hc⟩
        exact ih3 _ (by
          simpa [TraceGraph.addIssueInstanceSharedTextAssoc] using hm)
      · intro t ht
        exact ih3 t (by
          simpa [TraceGraph.addIssueInstanceSharedTextAssoc] using
            hmono t ht)

/-! Projection equations used to normalize `_generate_issue_tail`. -/

theorem intern_instances (st : GenState) (k : SharedTextKind) (c : String) :
    (ModelGenerator._get_shared_text st k c).2.graph.issueInstances =
      st.graph.issueInstances := (intern_untouched st k c).2.2.2.2.2.1

theorem intern_instTextAssoc (st : GenState) (k : SharedTextKind)
    (c : String) :
    (ModelGenerator._get_shared_text st k
      c).2.graph.issueInstanceSharedTextAssoc =
      st.graph.issueInstanceSharedTextAssoc :=
  (intern_untouched st k c).2.2.2.2.2.2.2.2.1

theorem internSet_instances (k : SharedTextKind) (ns : List String)
    (st : GenState) :
    (ModelGenerator.internSet k ns st).2.graph.issueInstances =
      st.graph.issueInstances := (internSet_char k ns st).1

theorem internSet_instTextAssoc (k : SharedTextKind) (ns : List String)
    (st : GenState) :
    (ModelGenerator.internSet k ns
      st).2.graph.issueInstanceSharedTextAssoc =
      st.graph.issueInstanceSharedTextAssoc := (internSet_char k ns st).2.1

theorem addFeatureAssocs_instances (inst : IssueInstance) (fs : List String)
    (st : GenState) :
    (ModelGenerator.addFeatureAssocs inst fs st).graph.issueInstances =
      st.graph.issueInstances := (addFeatureAssocs_char inst fs st).1

theorem featureBlock_assocEq (inst : IssueInstance) :
    ∀ (fs : List String) (st : GenState),
    (ModelGenerator.addFeatureAssocs inst fs
      st).graph.issueInstanceSharedTextAssoc =
      st.graph.issueInstanceSharedTextAssoc ++
        featureBlock inst fs st := by
  intro fs
  induction fs with
  | nil =>
      intro st
      simp [ModelGenerator.addFeatureAssocs, featureBlock]
  | cons f fs ih =>
      intro st
      simp only [ModelGenerator.addFeatureAssocs,
        featureBlock]
      rw [ih]
      simp [TraceGraph.addIssueInstanceSharedTextAssoc,
        intern_instTextAssoc st SharedTextKind.FEATURE f]

theorem featureBlock_forall (inst : IssueInstance) :
    ∀ (fs : List String) (st : GenState),
    List.Forall₂
      (fun (a : Nat × Nat) (f : String) => a.1 = inst.id ∧
        ∃ t ∈ (ModelGenerator.addFeatureAssocs inst fs st).graph.sharedTexts,
          t.id = a.2 ∧ t.kind = SharedTextKind.FEATURE ∧
          t.contents = strTake f SHARED_TEXT_LENGTH)
      (featureBlock inst fs st) fs := by
  intro fs
  induction fs with
  | nil => intro st; exact List.Forall₂.nil
  | cons f fs ih =>
      intro st
      simp only [ModelGenerator.addFeatureAssocs,
        featureBlock]
      generalize hp : ModelGenerator._get_shared_text st
        SharedTextKind.FEATURE f = p
      obtain ⟨hk, hc, hm, hmono, _⟩ :=
        hp ▸ intern_spec st SharedTextKind.FEATURE f
      refine List.Forall₂.cons ⟨rfl, ?_⟩ (ih _)
      refine ⟨p.1, ?_, rfl, hk, hc⟩
      exact (addFeatureAssocs_char inst fs _).2.2.2 _ (by
        simpa [TraceGraph.addIssueInstanceSharedTextAssoc] using hm)
theorem issue_tail_char (run : Run) (entry : IssueEntry) (cc : String → Nat)
    (tfs : List TraceFrame) (stB : GenState) :
    ∃ (inst : IssueInstance) (δ1 fblock : List (Nat × Nat)),
      (ModelGenerator._generate_issue_tail run entry cc tfs
        stB).graph.issueInstances = stB.graph.issueInstances ++ [inst] ∧
      inst.minTraceLengthToSources =
        ModelGenerator._get_minimum_trace_length entry.postconditions ∧
      inst.minTraceLengthToSinks =
        ModelGenerator._get_minimum_trace_length entry.preconditions ∧
      (ModelGenerator._generate_issue_tail run entry cc tfs
        stB).graph.issueInstanceSharedTextAssoc =
        stB.graph.issueInstanceSharedTextAssoc ++ δ1 ++ fblock ∧
      List.Forall₂
        (fun (a : Nat × Nat) (f : String) => a.1 = inst.id ∧
          ∃ t ∈ (ModelGenerator._generate_issue_tail run entry cc tfs
            stB).graph.sharedTexts,
            t.id = a.2 ∧ t.kind = SharedTextKind.FEATURE ∧
            t.contents = strTake f SHARED_TEXT_LENGTH)
        fblock ((ModelGenerator.issueFeatures entry).sort (· ≤ ·)) := by
  have reshape : ∀ (a b c d e f : List (Nat × Nat)),
      a ++ b ++ c ++ d ++ e ++ f = a ++ (b ++ c ++ d ++ e) ++ f := by
    intros; simp [List.append_assoc]
  cases hfi : entry.fixInfo with
  | none =>
      exact ⟨_, _, _, by
        simp only [ModelGenerator._generate_issue_tail, hfi,
          TraceGraph.addIssueInstance, TraceGraph.addIssue,
          TraceGraph.addIssueInstanceFixInfo, addFeatureAssocs_instances,
          featureBlock_assocEq, tfAssocFold_char, addTextAssocs_char,
          intern_instances, internSet_instances, intern_instTextAssoc,
          internSet_instTextAssoc]
        refine ⟨rfl, rfl, rfl, ?_, ?_⟩
        · rw [reshape]
        · exact featureBlock_forall _ _ _⟩
  | some s =>
      exact ⟨_, _, _, by
        simp only [ModelGenerator._generate_issue_tail, hfi,
          TraceGraph.addIssueInstance, TraceGraph.addIssue,
          TraceGraph.addIssueInstanceFixInfo, addFeatureAssocs_instances,
          featureBlock_assocEq, tfAssocFold_char, addTextAssocs_char,
          intern_instances, internSet_instances, intern_instTextAssoc,
          internSet_instTextAssoc]
        refine ⟨rfl, rfl, rfl, ?_, ?_⟩
        · rw [reshape]
        · exact featureBlock_forall _ _ _⟩
/-- C5: the created issue instance's minimum trace lengths come from the
direct fragments only: whenever `_generate_issue` succeeds, the single new
`IssueInstance` has `min_trace_length_to_sources` equal to
`_get_minimum_trace_length` of the issue's directly reported postcondition
fragments and `min_trace_length_to_sinks` equal to that of its direct
precondition fragments — each a lower bound of, and (when any direct
`(leaf, depth)` pair exists) a member of, the depths of the direct
fragments' `(leaf, depth)` pairs.  The values are functions of the raw
issue entry alone, so the frames produced by transitive expansion never
affect them. -/
theorem min_trace_lengths (run : Run) (fuel : Nat) (st : GenState)
    (entry : IssueEntry) (cc : String → Nat) (st' : GenState)
    (h : ModelGenerator._generate_issue run fuel st entry cc = some st') :
    ∃ inst : IssueInstance,
      st'.graph.issueInstances = st.graph.issueInstances ++ [inst] ∧
      inst.minTraceLengthToSources =
        ModelGenerator._get_minimum_trace_length entry.postconditions ∧
      inst.minTraceLengthToSinks =
        ModelGenerator._get_minimum_trace_length entry.preconditions ∧
      (∀ d ∈ directDepths entry.postconditions,
        inst.minTraceLengthToSources ≤ d) ∧
      (directDepths entry.postconditions ≠ [] →
        inst.minTraceLengthToSources ∈ directDepths entry.postconditions) ∧
      (∀ d ∈ directDepths entry.preconditions,
        inst.minTraceLengthToSinks ≤ d) ∧
      (directDepths entry.preconditions ≠ [] →
        inst.minTraceLengthToSinks ∈ directDepths entry.preconditions) := by
  simp only [ModelGenerator._generate_issue] at h
  cases h1 : ModelGenerator.genIssueTracesFold TraceKind.PRECONDITION run
      fuel entry entry.preconditions st with
  | none => rw [h1] at h; exact absurd h (by simp)
  | some pA =>
      rw [h1] at h
      simp only [] at h
      cases h2 : ModelGenerator.genIssueTracesFold TraceKind.POSTCONDITION
          run fuel entry entry.postconditions pA.2 with
      | none => rw [h2] at h; exact absurd h (by simp)
      | some pB =>
          rw [h2] at h
          simp only [Option.some.injEq] at h
          obtain ⟨inst, δ1, fblock, hI, hsrc, hsink, -, -⟩ :=
            issue_tail_char run entry cc (pA.1 ++ pB.1) pB.2
          have eA := (issue_traces_fold_ext TraceKind.PRECONDITION run fuel
            entry entry.preconditions st pA.1 pA.2
            (by rw [h1])).instances_eq
          have eB := (issue_traces_fold_ext TraceKind.POSTCONDITION run fuel
            entry entry.postconditions pA.2 pB.1 pB.2
            (by rw [h2])).instances_eq
          refine ⟨inst, ?_, hsrc, hsink, ?_, ?_, ?_, ?_⟩
          · rw [← h, hI, eB, eA]
          · intro d hd
            exact hsrc ▸ (mtl_char entry.postconditions).1 d hd
          · intro hne
            exact hsrc ▸ (mtl_char entry.postconditions).2.2 hne
          · intro d hd
            exact hsink ▸ (mtl_char entry.preconditions).1 d hd
          · intro hne
            exact hsink ▸ (mtl_char entry.preconditions).2.2 hne

theorem min_trace_lengths_witness :
    ∃ st', ModelGenerator._generate_issue runW 10 stEmpty issueW
        (ModelGenerator._compute_callables_count [issueW]) = some st' ∧
      ∃ inst : IssueInstance,
        st'.graph.issueInstances = stEmpty.graph.issueInstances ++ [inst] ∧
        inst.minTraceLengthToSources =
          ModelGenerator._get_minimum_trace_length issueW.postconditions ∧
        inst.minTraceLengthToSinks =
          ModelGenerator._get_minimum_trace_length issueW.preconditions ∧
        (∀ d ∈ directDepths issueW.postconditions,
          inst.minTraceLengthToSources ≤ d) ∧
        (directDepths issueW.postconditions ≠ [] →
          inst.minTraceLengthToSources ∈ directDepths issueW.postconditions) ∧
        (∀ d ∈ directDepths issueW.preconditions,
          inst.minTraceLengthToSinks ≤ d) ∧
        (directDepths issueW.preconditions ≠ [] →
          inst.minTraceLengthToSinks ∈ directDepths issueW.preconditions) := by
  have h0 : (ModelGenerator._generate_issue runW 10 stEmpty issueW
      (ModelGenerator._compute_callables_count [issueW])).isSome = true := by
    decide
  exact ⟨_, (Option.some_get h0).symm,
    min_trace_lengths runW 10 stEmpty issueW
      (ModelGenerator._compute_callables_count [issueW]) _
      (Option.some_get h0).symm⟩
theorem fc_body_eq :
    (fun (features : Finset String) (kv : String × FeatureValue) =>
      match kv.2 with
      | FeatureValue.str v => if v ≠ "" then insert (kv.1 ++ ":" ++ v) features
                              else insert kv.1 features
      | FeatureValue.other => insert kv.1 features) =
    (fun features kv => insert (renderFeature kv) features) := by
  funext features kv
  cases hv : kv.2 with
  | str v =>
      by_cases hne : v = "" <;> simp [renderFeature, hv, hne]
  | other => simp [renderFeature, hv]

theorem foldl_insert_mem (g : String × FeatureValue → String) :
    ∀ (l : List (String × FeatureValue)) (acc : Finset String) (s : String),
    (s ∈ l.foldl (fun fs kv => insert (g kv) fs) acc) ↔
      s ∈ acc ∨ ∃ kv ∈ l, s = g kv := by
  intro l
  induction l with
  | nil => simp
  | cons kv l ih =>
      intro acc s
      simp only [List.foldl_cons, ih, Finset.mem_insert, List.mem_cons]
      constructor
      · rintro (⟨h | h⟩ | ⟨kv', h1, h2⟩)
        · exact Or.inr ⟨kv, Or.inl rfl, h⟩
        · exact Or.inl h
        · exact Or.inr ⟨kv', Or.inr h1, h2⟩
      · rintro (h | ⟨kv', h1 | h1, h2⟩)
        · exact Or.inl (Or.inr h)
        · exact Or.inl (Or.inl (h1 ▸ h2))
        · exact Or.inr ⟨kv', h1, h2⟩

theorem fc_mem (issue : IssueEntry) (fm : List (String × FeatureValue))
    (s : String) :
    s ∈ ModelGenerator._generate_issue_feature_contents issue fm ↔
      ∃ kv ∈ fm, s = renderFeature kv := by
  unfold ModelGenerator._generate_issue_feature_contents
  rw [fc_body_eq, foldl_insert_mem]
  simp

theorem issueFeatures_mem (entry : IssueEntry) (s : String) :
    s ∈ ModelGenerator.issueFeatures entry ↔
      ∃ fm ∈ entry.features, ∃ kv ∈ fm, s = renderFeature kv := by
  have un : ∀ (l : List (List (String × FeatureValue))) (acc : Finset String)
      (s : String),
      (s ∈ l.foldl (fun acc f =>
        acc ∪ ModelGenerator._generate_issue_feature_contents entry f) acc) ↔
      s ∈ acc ∨ ∃ fm ∈ l,
        s ∈ ModelGenerator._generate_issue_feature_contents entry fm := by
    intro l
    induction l with
    | nil => simp
    | cons fm l ih =>
        intro acc s
        simp only [List.foldl_cons, ih, Finset.mem_union, List.mem_cons]
        constructor
        · rintro (⟨h | h⟩ | ⟨fm', h1, h2⟩)
          · exact Or.inl h
          · exact Or.inr ⟨fm, Or.inl rfl, h⟩
          · exact Or.inr ⟨fm', Or.inr h1, h2⟩
        · rintro (h | ⟨fm', h1 | h1, h2⟩)
          · exact Or.inl (Or.inl h)
          · exact Or.inl (Or.inr (h1 ▸ h2))
          · exact Or.inr ⟨fm', h1, h2⟩
  unfold ModelGenerator.issueFeatures
  rw [un]
  simp only [Finset.not_mem_empty, false_or]
  constructor
  · rintro ⟨fm, h1, h2⟩
    exact ⟨fm, h1, (fc_mem entry fm s).mp h2⟩
  · rintro ⟨fm, h1, h2⟩
    exact ⟨fm, h1, (fc_mem entry fm s).mpr h2⟩
/-- C10: feature rendering and association.  Every `(key, value)` pair of
every feature map of the issue renders as `"key:value"` when the value is
a non-empty string and as `"key"` otherwise; the issue's rendered-feature
set collects exactly those strings, with duplicates across maps collapsed
(a `Finset`); and when `_generate_issue` succeeds, its feature-association
block pairs the new instance with the interned FEATURE text of each
distinct rendered feature exactly once (one association per element of the
deduplicated, `Nodup` sorted list). -/
theorem feature_rendering (run : Run) (fuel : Nat) (st : GenState)
    (entry : IssueEntry) (cc : String → Nat) (st' : GenState)
    (h : ModelGenerator._generate_issue run fuel st entry cc = some st') :
    (∀ k v, v ≠ "" →
      renderFeature (k, FeatureValue.str v) = k ++ ":" ++ v) ∧
    (∀ k, renderFeature (k, FeatureValue.str "") = k) ∧
    (∀ k, renderFeature (k, FeatureValue.other) = k) ∧
    (∀ s, s ∈ (ModelGenerator.issueFeatures entry).sort (· ≤ ·) ↔
      ∃ fm ∈ entry.features, ∃ kv ∈ fm, s = renderFeature kv) ∧
    ((ModelGenerator.issueFeatures entry).sort (· ≤ ·)).Nodup ∧
    ∃ (inst : IssueInstance) (δ1 fblock : List (Nat × Nat)),
      st'.graph.issueInstances = st.graph.issueInstances ++ [inst] ∧
      st'.graph.issueInstanceSharedTextAssoc =
        st.graph.issueInstanceSharedTextAssoc ++ δ1 ++ fblock ∧
      List.Forall₂
        (fun (a : Nat × Nat) (f : String) => a.1 = inst.id ∧
          ∃ t ∈ st'.graph.sharedTexts,
            t.id = a.2 ∧ t.kind = SharedTextKind.FEATURE ∧
            t.contents = strTake f SHARED_TEXT_LENGTH)
        fblock ((ModelGenerator.issueFeatures entry).sort (· ≤ ·)) := by
  refine ⟨fun k v hv => by simp [renderFeature, hv],
    fun k => by simp [renderFeature],
    fun k => by simp [renderFeature],
    fun s => by rw [Finset.mem_sort]; exact issueFeatures_mem entry s,
    Finset.sort_nodup _ _, ?_⟩
  simp only [ModelGenerator._generate_issue] at h
  cases h1 : ModelGenerator.genIssueTracesFold TraceKind.PRECONDITION run
      fuel entry entry.preconditions st with
  | none => rw [h1] at h; exact absurd h (by simp)
  | some pA =>
      rw [h1] at h
      simp only [] at h
      cases h2 : ModelGenerator.genIssueTracesFold TraceKind.POSTCONDITION
          run fuel entry entry.postconditions pA.2 with
      | none => rw [h2] at h; exact absurd h (by simp)
      | some pB =>
          rw [h2] at h
          simp only [Option.some.injEq] at h
          obtain ⟨inst, δ1, fblock, hI, -, -, hassoc, hfor⟩ :=
            issue_tail_char run entry cc (pA.1 ++ pB.1) pB.2
          have extA := issue_traces_fold_ext TraceKind.PRECONDITION run fuel
            entry entry.preconditions st pA.1 pA.2 (by rw [h1])
          have extB := issue_traces_fold_ext TraceKind.POSTCONDITION run fuel
            entry entry.postconditions pA.2 pB.1 pB.2 (by rw [h2])
          refine ⟨inst, δ1, fblock, ?_, ?_, ?_⟩
          · rw [← h, hI, extB.instances_eq, extA.instances_eq]
          · rw [← h, hassoc, extB.instTextAssoc_eq, extA.instTextAssoc_eq]
          · rw [← h]
            exact hfor

theorem feature_rendering_witness :
    ModelGenerator._generate_issue runW 10 stEmpty issueW
        (ModelGenerator._compute_callables_count [issueW]) =
      some ((ModelGenerator._generate_issue runW 10 stEmpty issueW
        (ModelGenerator._compute_callables_count [issueW])).get
          (by decide)) ∧
    ((∀ k v, v ≠ "" →
      renderFeature (k, FeatureValue.str v) = k ++ ":" ++ v) ∧
    (∀ k, renderFeature (k, FeatureValue.str "") = k) ∧
    (∀ k, renderFeature (k, FeatureValue.other) = k) ∧
    (∀ s, s ∈ (ModelGenerator.issueFeatures issueW).sort (· ≤ ·) ↔
      ∃ fm ∈ issueW.features, ∃ kv ∈ fm, s = renderFeature kv) ∧
    ((ModelGenerator.issueFeatures issueW).sort (· ≤ ·)).Nodup ∧
    ∃ (inst : IssueInstance) (δ1 fblock : List (Nat × Nat)),
      ((ModelGenerator._generate_issue runW 10 stEmpty issueW
        (ModelGenerator._compute_callables_count [issueW])).get
          (by decide)).graph.issueInstances =
        stEmpty.graph.issueInstances ++ [inst] ∧
      ((ModelGenerator._generate_issue runW 10 stEmpty issueW
        (ModelGenerator._compute_callables_count [issueW])).get
          (by decide)).graph.issueInstanceSharedTextAssoc =
        stEmpty.graph.issueInstanceSharedTextAssoc ++ δ1 ++ fblock ∧
      List.Forall₂
        (fun (a : Nat × Nat) (f : String) => a.1 = inst.id ∧
          ∃ t ∈ ((ModelGenerator._generate_issue runW 10 stEmpty issueW
            (ModelGenerator._compute_callables_count [issueW])).get
              (by decide)).graph.sharedTexts,
            t.id = a.2 ∧ t.kind = SharedTextKind.FEATURE ∧
            t.contents = strTake f SHARED_TEXT_LENGTH)
        fblock ((ModelGenerator.issueFeatures issueW).sort (· ≤ ·))) :=
  ⟨(Option.some_get (by decide)).symm,
    feature_rendering runW 10 stEmpty issueW
      (ModelGenerator._compute_callables_count [issueW]) _
      (Option.some_get (by decide)).symm⟩
/-- C9: the builder creates its Run with status INCOMPLETE — even though
`_create_empty_run`'s `status` parameter defaults to FINISHED — and no
builder operation changes it afterwards: whatever the input, whenever
`run` returns an output, the Run in the returned summary still has status
INCOMPLETE. -/
theorem run_status_incomplete (fuel : Nat) (cfg : Config) (now : Nat)
    (input : DictEntries) (out : TraceGraph × ModelGenerator.Summary)
    (h : ModelGenerator.run fuel cfg now input = some out) :
    out.2.run.status = RunStatus.INCOMPLETE ∧
    (ModelGenerator._create_empty_run cfg now).status = RunStatus.FINISHED := by
  refine ⟨?_, rfl⟩
  simp only [ModelGenerator.run] at h
  split at h
  · exact absurd h (by simp)
  · obtain rfl := (Option.some.inj h).symm
    rfl

theorem run_status_incomplete_witness :
    ModelGenerator.run 10 cfgW 0 inputW =
      some ((ModelGenerator.run 10 cfgW 0 inputW).get (by decide)) ∧
    ((ModelGenerator.run 10 cfgW 0 inputW).get
        (by decide)).2.run.status = RunStatus.INCOMPLETE ∧
    (ModelGenerator._create_empty_run cfgW 0).status = RunStatus.FINISHED :=
  ⟨(Option.some_get (by decide)).symm,
    run_status_incomplete 10 cfgW 0 inputW _
      (Option.some_get (by decide)).symm⟩
theorem internLeaves_char (lk : SharedTextKind) (fr : TraceFrame) :
    ∀ (leaves : List (String × Nat)) (acc : Finset Nat) (st : GenState),
    ∃ δ, (ModelGenerator.internLeaves lk fr leaves acc
        st).2.graph.traceFrameLeafAssoc =
      st.graph.traceFrameLeafAssoc ++ δ ∧
    List.Forall₂ (fun (a : Nat × Nat × Nat) (ld : String × Nat) =>
      a.1 = fr.id ∧ a.2.2 = ld.2 ∧
      ∃ t ∈ (ModelGenerator.internLeaves lk fr leaves acc
          st).2.graph.sharedTexts,
        t.id = a.2.1 ∧ t.kind = lk ∧
        t.contents = strTake ld.1 SHARED_TEXT_LENGTH) δ leaves := by
  intro leaves
  induction leaves with
  | nil =>
      intro acc st
      exact ⟨[], by simp [ModelGenerator.internLeaves], List.Forall₂.nil⟩
  | cons ld rest ih =>
      intro acc st
      obtain ⟨ld1, ld2⟩ := ld
      simp only [ModelGenerator.internLeaves]
      generalize hp : ModelGenerator._get_shared_text st lk ld1 = p
      obtain ⟨hk, hc, hm, hmono, hle⟩ := hp ▸ intern_spec st lk ld1
      obtain ⟨-, -, -, -, -, -, -, hassoc, -, -, -⟩ :=
        hp ▸ intern_untouched st lk ld1
      obtain ⟨δ, ihδ, ihf⟩ := ih (insert p.1.id acc)
        { p.2 with graph := p.2.graph.addTraceFrameLeafAssoc fr p.1 ld2 }
      obtain ⟨-, ihmono, -, -, -, -, -, -, -, -, -, -, -⟩ :=
        internLeaves_state lk fr rest (insert p.1.id acc)
          { p.2 with graph := p.2.graph.addTraceFrameLeafAssoc fr p.1 ld2 }
      refine ⟨(fr.id, p.1.id, ld2) :: δ, ?_, ?_⟩
      · rw [ihδ]
        simp [TraceGraph.addTraceFrameLeafAssoc, hassoc]
      · refine List.Forall₂.cons ⟨rfl, rfl, p.1, ?_, rfl, hk, hc⟩ ihf
        exact ihmono p.1 hm
theorem raw_frame_leaves (kind : TraceKind) (run : Run) (st : GenState)
    (fn ca cp ce cep : String) (loc : SourceLocation)
    (ts : List SourceLocation) (leaves : List (String × Nat))
    (ti : TypeInterval) :
    (∃ t ∈ (ModelGenerator._generate_raw_trace_frame kind run st fn ca cp ce
        cep loc ts leaves ti).2.graph.sharedTexts,
      t.id = (ModelGenerator._generate_raw_trace_frame kind run st fn ca cp
        ce cep loc ts leaves ti).1.1.callerId ∧
      t.kind = SharedTextKind.CALLABLE ∧
      t.contents = strTake ca SHARED_TEXT_LENGTH) ∧
    (∃ t ∈ (ModelGenerator._generate_raw_trace_frame kind run st fn ca cp ce
        cep loc ts leaves ti).2.graph.sharedTexts,
      t.id = (ModelGenerator._generate_raw_trace_frame kind run st fn ca cp
        ce cep loc ts leaves ti).1.1.calleeId ∧
      t.kind = SharedTextKind.CALLABLE ∧
      t.contents = strTake ce SHARED_TEXT_LENGTH) ∧
    (∃ t ∈ (ModelGenerator._generate_raw_trace_frame kind run st fn ca cp ce
        cep loc ts leaves ti).2.graph.sharedTexts,
      t.id = (ModelGenerator._generate_raw_trace_frame kind run st fn ca cp
        ce cep loc ts leaves ti).1.1.filenameId ∧
      t.kind = SharedTextKind.FILENAME ∧
      t.contents = strTake fn SHARED_TEXT_LENGTH) ∧
    ∃ δ, (ModelGenerator._generate_raw_trace_frame kind run st fn ca cp ce
        cep loc ts leaves ti).2.graph.traceFrameLeafAssoc =
      st.graph.traceFrameLeafAssoc ++ δ ∧
    List.Forall₂ (fun (a : Nat × Nat × Nat) (ld : String × Nat) =>
      a.1 = (ModelGenerator._generate_raw_trace_frame kind run st fn ca cp
        ce cep loc ts leaves ti).1.1.id ∧ a.2.2 = ld.2 ∧
      ∃ t ∈ (ModelGenerator._generate_raw_trace_frame kind run st fn ca cp
          ce cep loc ts leaves ti).2.graph.sharedTexts,
        t.id = a.2.1 ∧ t.kind = ModelGenerator.leafKindOf kind ∧
        t.contents = strTake ld.1 SHARED_TEXT_LENGTH) δ leaves := by
  simp only [ModelGenerator._generate_raw_trace_frame]
  generalize hp1 : ModelGenerator._get_shared_text st SharedTextKind.CALLABLE
    ca = p1
  generalize hp2 : ModelGenerator._get_shared_text p1.2
    SharedTextKind.CALLABLE ce = p2
  generalize hp3 : ModelGenerator._get_shared_text p2.2
    SharedTextKind.FILENAME fn = p3
  obtain ⟨hk1, hc1, hm1, hmono1, -⟩ :=
    hp1 ▸ intern_spec st SharedTextKind.CALLABLE ca
  obtain ⟨hk2, hc2, hm2, hmono2, -⟩ :=
    hp2 ▸ intern_spec p1.2 SharedTextKind.CALLABLE ce
  obtain ⟨hk3, hc3, hm3, hmono3, -⟩ :=
    hp3 ▸ intern_spec p2.2 SharedTextKind.FILENAME fn
  obtain ⟨-, -, -, -, -, -, -, hassoc1, -, -, -⟩ :=
    hp1 ▸ intern_untouched st SharedTextKind.CALLABLE ca
  obtain ⟨-, -, -, -, -, -, -, hassoc2, -, -, -⟩ :=
    hp2 ▸ intern_untouched p1.2 SharedTextKind.CALLABLE ce
  obtain ⟨-, -, -, -, -, -, -, hassoc3, -, -, -⟩ :=
    hp3 ▸ intern_untouched p2.2 SharedTextKind.FILENAME fn
  set tf : TraceFrame :=
    { id := p3.2.nextId, kind := kind, callerId := p1.1.id, callerPort := cp,
      calleeId := p2.1.id, calleePort := cep,
      calleeLocation := SourceLocation.mk loc.line loc.start loc.stop
      filenameId := p3.1.id, titos := ts, runId := run.id,
      preservesTypeContext := (ModelGenerator._get_interval ti).2.2,
      typeIntervalLower := (ModelGenerator._get_interval ti).1,
      typeIntervalUpper := (ModelGenerator._get_interval ti).2.1 } with htf
  set st4 : GenState :=
    { graph := p3.2.graph, nextId := p3.2.nextId + 1,
      visitedFrames := p3.2.visitedFrames,
      traceEntries := p3.2.traceEntries,
      missingTraces := p3.2.missingTraces, bigTito := p3.2.bigTito } with hst4
  obtain ⟨δ, hδ, hF⟩ :=
    internLeaves_char (ModelGenerator.leafKindOf kind) tf leaves ∅ st4
  obtain ⟨-, ihmono, -, -, -, -, -, -, -, -, -, -, -⟩ :=
    internLeaves_state (ModelGenerator.leafKindOf kind) tf leaves ∅ st4
  have hkeep : ∀ t, t ∈ (ModelGenerator.internLeaves
      (ModelGenerator.leafKindOf kind) tf leaves ∅ st4).2.graph.sharedTexts →
      t ∈ ((ModelGenerator.internLeaves (ModelGenerator.leafKindOf kind) tf
        leaves ∅ st4).2.graph.addTraceFrame tf).sharedTexts := by
    intro t ht
    simpa [TraceGraph.addTraceFrame] using ht
  refine ⟨⟨p1.1, ?_, rfl, hk1, hc1⟩, ⟨p2.1, ?_, rfl, hk2, hc2⟩,
    ⟨p3.1, ?_, rfl, hk3, hc3⟩, δ, ?_, ?_⟩
  · exact hkeep _ (ihmono p1.1 (hmono3 _ (hmono2 _ hm1)))
  · exact hkeep _ (ihmono p2.1 (hmono3 _ hm2))
  · exact hkeep _ (ihmono p3.1 hm3)
  · show ((ModelGenerator.internLeaves (ModelGenerator.leafKindOf kind) tf
      leaves ∅ st4).2.graph.addTraceFrame tf).traceFrameLeafAssoc =
      st.graph.traceFrameLeafAssoc ++ δ
    rw [show ∀ g : TraceGraph, ∀ f, (g.addTraceFrame f).traceFrameLeafAssoc =
      g.traceFrameLeafAssoc from fun g f => rfl]
    rw [hδ]
    show p3.2.graph.traceFrameLeafAssoc ++ δ =
      st.graph.traceFrameLeafAssoc ++ δ
    rw [hassoc3, hassoc2, hassoc1]
  · refine hF.imp ?_
    rintro a ld ⟨h1, h2, t, ht, h3, h4, h5⟩
    exact ⟨h1, h2, t, hkeep t ht, h3, h4, h5⟩
/-- C2 (amended): the synthesized first-hop frame of each direct call-edge
fragment has caller port `"root"`, caller text the issue's callable,
filename text the issue's filename, callee and callee port from the
fragment, and its leaf associations are exactly the fragment's own
`leaves` pairs (`callinfo["leaves"]`) — one `(frame, leaf text, depth)`
association per `(name, depth)` pair, the text interned under the
kind-determined leaf kind; every later association added by transitive
expansion belongs to a strictly younger frame. -/
theorem first_hop_frame (kind : TraceKind) (run : Run) (fuel : Nat)
    (st : GenState) (issue : IssueEntry) (callinfo : IssueCallInfo)
    (tf : TraceFrame) (st' : GenState)
    (h : ModelGenerator._generate_issue_traces kind run fuel st issue
      callinfo = some (tf, st')) :
    tf.callerPort = "root" ∧
    tf.calleePort = callinfo.port ∧
    tf.kind = kind ∧
    (∃ t ∈ st'.graph.sharedTexts, t.id = tf.callerId ∧
      t.kind = SharedTextKind.CALLABLE ∧
      t.contents = strTake issue.callable SHARED_TEXT_LENGTH) ∧
    (∃ t ∈ st'.graph.sharedTexts, t.id = tf.filenameId ∧
      t.kind = SharedTextKind.FILENAME ∧
      t.contents = strTake issue.filename SHARED_TEXT_LENGTH) ∧
    (∃ t ∈ st'.graph.sharedTexts, t.id = tf.calleeId ∧
      t.kind = SharedTextKind.CALLABLE ∧
      t.contents = strTake callinfo.callee SHARED_TEXT_LENGTH) ∧
    ∃ δ0 δ1, st'.graph.traceFrameLeafAssoc =
      st.graph.traceFrameLeafAssoc ++ δ0 ++ δ1 ∧
      List.Forall₂ (fun (a : Nat × Nat × Nat) (ld : String × Nat) =>
        a.1 = tf.id ∧ a.2.2 = ld.2 ∧
        ∃ t ∈ st'.graph.sharedTexts, t.id = a.2.1 ∧
          t.kind = ModelGenerator.leafKindOf kind ∧
          t.contents = strTake ld.1 SHARED_TEXT_LENGTH)
        δ0 callinfo.leaves ∧
      (∀ a ∈ δ1, tf.id < a.1) := by
  simp only [ModelGenerator._generate_issue_traces] at h
  generalize hpt : ModelGenerator._generate_tito st issue.filename
    callinfo.titos issue.callable = pt at h
  generalize hpf : ModelGenerator._generate_raw_trace_frame kind run pt.2
    issue.filename issue.callable "root" callinfo.callee callinfo.port
    callinfo.location pt.1 callinfo.leaves callinfo.typeInterval = pf at h
  cases hexp : ModelGenerator._generate_transitive_trace_frames run fuel
      pf.2 pf.1.1 pf.1.2 with
  | none => rw [hexp] at h; exact absurd h (by simp)
  | some st2 =>
      rw [hexp] at h
      simp only [Option.some.injEq, Prod.mk.injEq] at h
      obtain ⟨rfl, rfl⟩ := h
      have Eexp : TraceOpExt pf.2 st2 :=
        expandLoop_ext pf.1.1.kind run fuel (pf.2, [(pf.1.1, pf.1.2)]) st2
          hexp
      obtain ⟨-, -, hid_lt, -, -, -, -, -, hcp, hcep, hkind⟩ :=
        hpf ▸ raw_frame_ext kind run pt.2 issue.filename issue.callable
          "root" callinfo.callee callinfo.port callinfo.location pt.1
          callinfo.leaves callinfo.typeInterval
      obtain ⟨hcaT, hceT, hfnT, δ0, hδ0, hF⟩ :=
        hpf ▸ raw_frame_leaves kind run pt.2 issue.filename issue.callable
          "root" callinfo.callee callinfo.port callinfo.location pt.1
          callinfo.leaves callinfo.typeInterval
      obtain ⟨hgr, -, -, -, -⟩ := hpt ▸ tito_state st issue.filename
        callinfo.titos issue.callable
      obtain ⟨δ1, hδ1, hδ1f⟩ := Eexp.assoc_ext
      refine ⟨hcp, hcep, hkind, ?_, ?_, ?_, δ0, δ1, ?_, ?_, ?_⟩
      · obtain ⟨t, ht, h1, h2, h3⟩ := hcaT
        exact ⟨t, Eexp.texts_mono t ht, h1, h2, h3⟩
      · obtain ⟨t, ht, h1, h2, h3⟩ := hfnT
        exact ⟨t, Eexp.texts_mono t ht, h1, h2, h3⟩
      · obtain ⟨t, ht, h1, h2, h3⟩ := hceT
        exact ⟨t, Eexp.texts_mono t ht, h1, h2, h3⟩
      · rw [hδ1, hδ0, hgr]
      · refine hF.imp ?_
        rintro a ld ⟨h1, h2, t, ht, h3, h4, h5⟩
        exact ⟨h1, h2, t, Eexp.texts_mono t ht, h3, h4, h5⟩
      · intro a ha
        exact Nat.lt_of_lt_of_le hid_lt (hδ1f a ha)
/-- C2 counterexample: the spec says the first-hop leaf set is the issue's
`final_sinks` triples, but the code takes `callinfo["leaves"]`.  For
`issueC2` — whose only precondition fragment carries the leaf pair
`("RCE", 2)` while the issue's `final_sinks` name kind `"SqlInjection"` —
the synthesized first-hop frame's single leaf association points at the
interned SINK text `"RCE"` with depth 2, and no text `"SqlInjection"` is
interned anywhere in the output state. -/
theorem first_hop_leaves_not_final_sinks :
    ((ModelGenerator._generate_issue_traces TraceKind.PRECONDITION runW 10
        stEmpty issueC2 ciC2).map (fun p =>
      (p.2.graph.traceFrameLeafAssoc.map (fun a =>
        (p.2.graph.sharedTexts.filterMap (fun t =>
          if t.id = a.2.1 then some (t.contents, t.kind) else none),
         a.2.2)),
       p.2.graph.sharedTexts.countP
         (fun t => t.contents = "SqlInjection")))) =
      some ([([("RCE", SharedTextKind.SINK)], 2)], 0) ∧
    issueC2.finalSinks.map (fun t => t.2.1) = ["SqlInjection"] ∧
    ciC2.leaves = [("RCE", 2)] := by
  exact ⟨by decide, by decide, by decide⟩

theorem first_hop_frame_witness :
    ModelGenerator._generate_issue_traces TraceKind.PRECONDITION runW 10
        stEmpty issueW ciW =
      some (((ModelGenerator._generate_issue_traces TraceKind.PRECONDITION
          runW 10 stEmpty issueW ciW).get (by decide)).1,
        ((ModelGenerator._generate_issue_traces TraceKind.PRECONDITION
          runW 10 stEmpty issueW ciW).get (by decide)).2) ∧
    (((ModelGenerator._generate_issue_traces TraceKind.PRECONDITION runW 10
        stEmpty issueW ciW).get (by decide)).1.callerPort = "root" ∧
     ((ModelGenerator._generate_issue_traces TraceKind.PRECONDITION runW 10
        stEmpty issueW ciW).get (by decide)).1.calleePort = ciW.port ∧
     ((ModelGenerator._generate_issue_traces TraceKind.PRECONDITION runW 10
        stEmpty issueW ciW).get (by decide)).1.kind =
        TraceKind.PRECONDITION ∧
     (∃ t ∈ ((ModelGenerator._generate_issue_traces TraceKind.PRECONDITION
          runW 10 stEmpty issueW ciW).get
            (by decide)).2.graph.sharedTexts,
        t.id = ((ModelGenerator._generate_issue_traces
          TraceKind.PRECONDITION runW 10 stEmpty issueW ciW).get
            (by decide)).1.callerId ∧
        t.kind = SharedTextKind.CALLABLE ∧
        t.contents = strTake issueW.callable SHARED_TEXT_LENGTH) ∧
     (∃ t ∈ ((ModelGenerator._generate_issue_traces TraceKind.PRECONDITION
          runW 10 stEmpty issueW ciW).get
            (by decide)).2.graph.sharedTexts,
        t.id = ((ModelGenerator._generate_issue_traces
          TraceKind.PRECONDITION runW 10 stEmpty issueW ciW).get
            (by decide)).1.filenameId ∧
        t.kind = SharedTextKind.FILENAME ∧
        t.contents = strTake issueW.filename SHARED_TEXT_LENGTH) ∧
     (∃ t ∈ ((ModelGenerator._generate_issue_traces TraceKind.PRECONDITION
          runW 10 stEmpty issueW ciW).get
            (by decide)).2.graph.sharedTexts,
        t.id = ((ModelGenerator._generate_issue_traces
          TraceKind.PRECONDITION runW 10 stEmpty issueW ciW).get
            (by decide)).1.calleeId ∧
        t.kind = SharedTextKind.CALLABLE ∧
        t.contents = strTake ciW.callee SHARED_TEXT_LENGTH) ∧
     ∃ δ0 δ1, ((ModelGenerator._generate_issue_traces
          TraceKind.PRECONDITION runW 10 stEmpty issueW ciW).get
            (by decide)).2.graph.traceFrameLeafAssoc =
        stEmpty.graph.traceFrameLeafAssoc ++ δ0 ++ δ1 ∧
        List.Forall₂ (fun (a : Nat × Nat × Nat) (ld : String × Nat) =>
          a.1 = ((ModelGenerator._generate_issue_traces
            TraceKind.PRECONDITION runW 10 stEmpty issueW ciW).get
              (by decide)).1.id ∧ a.2.2 = ld.2 ∧
          ∃ t ∈ ((ModelGenerator._generate_issue_traces
              TraceKind.PRECONDITION runW 10 stEmpty issueW ciW).get
                (by decide)).2.graph.sharedTexts, t.id = a.2.1 ∧
            t.kind = ModelGenerator.leafKindOf TraceKind.PRECONDITION ∧
            t.contents = strTake ld.1 SHARED_TEXT_LENGTH)
          δ0 ciW.leaves ∧
        (∀ a ∈ δ1, ((ModelGenerator._generate_issue_traces
          TraceKind.PRECONDITION runW 10 stEmpty issueW ciW).get
            (by decide)).1.id < a.1)) :=
  ⟨(Option.some_get (by decide)).symm,
    first_hop_frame TraceKind.PRECONDITION runW 10 stEmpty issueW ciW _ _
      (Option.some_get (by decide)).symm⟩
theorem mem_leafUniverse :
    ∀ (q : List (TraceFrame × Finset Nat)) (x : Nat),
    x ∈ leafUniverse q ↔ ∃ e ∈ q, x ∈ e.2 := by
  intro q
  induction q with
  | nil => simp [leafUniverse]
  | cons e q ih =>
      intro x
      show x ∈ e.2 ∪ leafUniverse q ↔ _
      simp [Finset.mem_union, ih]

theorem leafUniverse_concat_subsets (rest : List (TraceFrame × Finset Nat))
    (e : TraceFrame × Finset Nat) :
    leafUniverse rest ⊆ leafUniverse (rest ++ [e]) ∧
    e.2 ⊆ leafUniverse (rest ++ [e]) := by
  constructor
  · intro x hx
    rw [mem_leafUniverse] at hx ⊢
    obtain ⟨e', he', hx⟩ := hx
    exact ⟨e', List.mem_append_left _ he', hx⟩
  · intro x hx
    rw [mem_leafUniverse]
    exact ⟨e, List.mem_append_right _ (List.mem_singleton.mpr rfl), hx⟩

theorem find_filter_ne (i j : Nat) (hji : j ≠ i) :
    ∀ (v : List (Nat × Finset Nat)),
    (v.filter (fun p => p.1 ≠ i)).find? (fun p => p.1 = j) =
      v.find? (fun p => p.1 = j) := by
  intro v
  induction v with
  | nil => rfl
  | cons a v ih =>
      by_cases hai : a.1 = i
      · have h1 : (decide (a.1 ≠ i)) = false := by simp [hai]
        have h2 : (decide (a.1 = j)) = false := by
          simp only [decide_eq_false_iff_not]
          intro h
          exact hji (h ▸ hai)
        rw [List.filter_cons, h1, if_neg (by simp), List.find?_cons, h2]
        exact ih
      · have h1 : (decide (a.1 ≠ i)) = true := by simp [hai]
        rw [List.filter_cons, h1, if_pos rfl]
        by_cases haj : a.1 = j
        · have h2 : (decide (a.1 = j)) = true := by simp [haj]
          rw [List.find?_cons, h2, List.find?_cons, h2]
        · have h2 : (decide (a.1 = j)) = false := by simp [haj]
          rw [List.find?_cons, h2, List.find?_cons, h2]
          exact ih

theorem visitedLeaves_update (st : GenState) (f : Nat) (X : Finset Nat)
    (j : Nat) :
    visitedLeaves
        { st with visitedFrames := setVisited st.visitedFrames f X } j =
      if j = f then X else visitedLeaves st j := by
  by_cases hj : j = f
  · subst hj
    simp [visitedLeaves, setVisited, List.find?_cons]
  · simp only [if_neg hj]
    show ((((setVisited st.visitedFrames f X).find?
      (fun p => p.1 = j)).map (fun p => p.2)).getD ∅) = _
    rw [show setVisited st.visitedFrames f X =
      (f, X) :: st.visitedFrames.filter (fun p => p.1 ≠ f) from rfl]
    rw [List.find?_cons]
    have h2 : (decide ((f, X).1 = j)) = false := by
      simp; exact fun h => absurd h.symm hj
    rw [h2]
    rw [find_filter_ne f j hj]
    rfl

theorem mem_frameIdSet (st : GenState) (q : List (TraceFrame × Finset Nat))
    (i : Nat) :
    i ∈ frameIdSet st q ↔
      (∃ fr ∈ st.graph.traceFrames, fr.id = i) ∨ ∃ e ∈ q, e.1.id = i := by
  simp [frameIdSet, List.mem_toFinset]
theorem visitedLeaves_congr (st st' : GenState)
    (h : st'.visitedFrames = st.visitedFrames) (j : Nat) :
    visitedLeaves st' j = visitedLeaves st j := by
  unfold visitedLeaves
  rw [h]

theorem expMeasure_prune (kind : TraceKind) (st : GenState)
    (rest : List (TraceFrame × Finset Nat)) (e : TraceFrame × Finset Nat) :
    expMeasure kind (st, rest) ≤ expMeasure kind (st, rest ++ [e]) := by
  have hU : leafUniverse rest ⊆ leafUniverse (rest ++ [e]) :=
    (leafUniverse_concat_subsets rest e).1
  have hF : frameIdSet st rest ⊆ frameIdSet st (rest ++ [e]) := by
    intro i hi
    rw [mem_frameIdSet] at hi ⊢
    rcases hi with h | ⟨e', he', h⟩
    · exact Or.inl h
    · exact Or.inr ⟨e', List.mem_append_left _ he', h⟩
  have hD : leafDeficit st rest ≤ leafDeficit st (rest ++ [e]) := by
    unfold leafDeficit
    calc ∑ i ∈ frameIdSet st rest,
          (leafUniverse rest \ visitedLeaves st i).card
        ≤ ∑ i ∈ frameIdSet st rest,
          (leafUniverse (rest ++ [e]) \ visitedLeaves st i).card :=
          Finset.sum_le_sum (fun i _ => Finset.card_le_card
            (Finset.sdiff_subset_sdiff hU (Finset.Subset.refl _)))
      _ ≤ ∑ i ∈ frameIdSet st (rest ++ [e]),
          (leafUniverse (rest ++ [e]) \ visitedLeaves st i).card :=
          Finset.sum_le_sum_of_subset hF
  exact Nat.add_le_add
    (Nat.mul_le_mul (Nat.succ_le_succ (Finset.card_le_card hU))
      (Nat.le_refl _)) hD

theorem measure_arith (A B C D D' SF SD KU k : Nat)
    (h1 : A ≤ B) (h2 : B + KU + k ≤ C) (h3 : D' ≤ SF + SD)
    (h4 : SF + 1 ≤ D) (h5 : SD ≤ KU) : A + D' < C + D := by omega
theorem expMeasure_expand (kind : TraceKind) (run : Run) (st : GenState)
    (rest : List (TraceFrame × Finset Nat)) (frame : TraceFrame)
    (leaves leaves' X : Finset Nat)
    (hsub : leaves' ⊆ leaves)
    (hne : leaves' ≠ ∅)
    (hdisj : leaves' ∩ visitedLeaves st frame.id = ∅)
    (hX : X = visitedLeaves st frame.id ∪ leaves') :
    expMeasure kind
      ((ModelGenerator._get_or_populate_trace_frames kind run
          { st with visitedFrames := setVisited st.visitedFrames frame.id X }
          frame.calleeId frame.calleePort).2,
        rest ++ (ModelGenerator._get_or_populate_trace_frames kind run
          { st with visitedFrames := setVisited st.visitedFrames frame.id X }
          frame.calleeId frame.calleePort).1.map
          (fun r => (r.1, leaves' ∩ r.2))) <
      expMeasure kind (st, rest ++ [(frame, leaves)]) := by
  obtain ⟨E, hv, ⟨δf, hδf, hpool⟩, hmem⟩ :=
    getOrPop_ext kind run
      { st with visitedFrames := setVisited st.visitedFrames frame.id X }
      frame.calleeId frame.calleePort
  generalize hpn : ModelGenerator._get_or_populate_trace_frames kind run
    { st with visitedFrames := setVisited st.visitedFrames frame.id X }
    frame.calleeId frame.calleePort = pn at *
  have hleavesU : leaves ⊆ leafUniverse (rest ++ [(frame, leaves)]) :=
    (leafUniverse_concat_subsets rest (frame, leaves)).2
  have hU'U : leafUniverse (rest ++ pn.1.map (fun r => (r.1, leaves' ∩ r.2)))
      ⊆ leafUniverse (rest ++ [(frame, leaves)]) := by
    intro x hx
    rw [mem_leafUniverse] at hx
    obtain ⟨e', he', hx⟩ := hx
    rcases List.mem_append.mp he' with he' | he'
    · exact (leafUniverse_concat_subsets rest (frame, leaves)).1
        ((mem_leafUniverse rest x).mpr ⟨e', he', hx⟩)
    · obtain ⟨r, hr, rfl⟩ := List.mem_map.mp he'
      exact hleavesU (hsub (Finset.mem_of_mem_inter_left hx))
  have hvis' : ∀ j, visitedLeaves pn.2 j =
      if j = frame.id then X else visitedLeaves st j := by
    intro j
    rw [visitedLeaves_congr _ _ hv j]
    exact visitedLeaves_update st frame.id X j
  have hfF : frame.id ∈ frameIdSet st (rest ++ [(frame, leaves)]) := by
    rw [mem_frameIdSet]
    exact Or.inr ⟨(frame, leaves),
      List.mem_append_right _ (List.mem_singleton.mpr rfl), rfl⟩
  have hframes : pn.2.graph.traceFrames = st.graph.traceFrames ++ δf := hδf
  have hF' : frameIdSet pn.2 (rest ++ pn.1.map (fun r => (r.1, leaves' ∩ r.2)))
      ⊆ frameIdSet st (rest ++ [(frame, leaves)]) ∪
        (δf.map (fun fr => fr.id)).toFinset := by
    intro i hi
    rw [mem_frameIdSet] at hi
    have hofFrame : ∀ fr, fr ∈ pn.2.graph.traceFrames → fr.id = i →
        i ∈ frameIdSet st (rest ++ [(frame, leaves)]) ∪
          (δf.map (fun fr => fr.id)).toFinset := by
      intro fr hfr hfri
      rw [hframes] at hfr
      rcases List.mem_append.mp hfr with hfr | hfr
      · exact Finset.mem_union_left _
          ((mem_frameIdSet st _ i).mpr (Or.inl ⟨fr, hfr, hfri⟩))
      · exact Finset.mem_union_right _
          (List.mem_toFinset.mpr (List.mem_map.mpr ⟨fr, hfr, hfri⟩))
    rcases hi with ⟨fr, hfr, hfri⟩ | ⟨e', he', hei⟩
    · exact hofFrame fr hfr hfri
    · rcases List.mem_append.mp he' with he' | he'
      · exact Finset.mem_union_left _ ((mem_frameIdSet st _ i).mpr
          (Or.inr ⟨e', List.mem_append_left _ he', hei⟩))
      · obtain ⟨r, hr, rfl⟩ := List.mem_map.mp he'
        exact hofFrame r.1 (hmem r hr) hei
  have hgf : (leafUniverse (rest ++ pn.1.map (fun r => (r.1, leaves' ∩ r.2)))
      \ visitedLeaves pn.2 frame.id).card + 1 ≤
      (leafUniverse (rest ++ [(frame, leaves)]) \
        visitedLeaves st frame.id).card := by
    rw [hvis' frame.id, if_pos rfl, hX]
    have hsd : leafUniverse (rest ++ [(frame, leaves)]) \
        (visitedLeaves st frame.id ∪ leaves') =
        (leafUniverse (rest ++ [(frame, leaves)]) \
          visitedLeaves st frame.id) \ leaves' := by
      ext x
      simp only [Finset.mem_sdiff, Finset.mem_union]
      tauto
    have hL' : leaves' ⊆ leafUniverse (rest ++ [(frame, leaves)]) \
        visitedLeaves st frame.id := by
      intro x hx
      rw [Finset.mem_sdiff]
      refine ⟨hleavesU (hsub hx), ?_⟩
      intro hvx
      have : x ∈ leaves' ∩ visitedLeaves st frame.id :=
        Finset.mem_inter.mpr ⟨hx, hvx⟩
      rw [hdisj] at this
      exact absurd this (Finset.not_mem_empty x)
    have h1 : (leafUniverse (rest ++ pn.1.map (fun r => (r.1, leaves' ∩ r.2)))
        \ (visitedLeaves st frame.id ∪ leaves')).card ≤
        ((leafUniverse (rest ++ [(frame, leaves)]) \
          visitedLeaves st frame.id) \ leaves').card := by
      rw [← hsd]
      exact Finset.card_le_card
        (Finset.sdiff_subset_sdiff hU'U (Finset.Subset.refl _))
    have h2 := Finset.card_sdiff hL'
    have h3 := Finset.card_le_card hL'
    have h4 : 0 < leaves'.card :=
      Finset.card_pos.mpr (Finset.nonempty_iff_ne_empty.mpr hne)
    omega
  have hgt : ∀ i ∈ (frameIdSet st (rest ++ [(frame, leaves)])).erase frame.id,
      (leafUniverse (rest ++ pn.1.map (fun r => (r.1, leaves' ∩ r.2)))
        \ visitedLeaves pn.2 i).card ≤
      (leafUniverse (rest ++ [(frame, leaves)]) \ visitedLeaves st i).card := by
    intro i hi
    rw [hvis' i, if_neg (Finset.ne_of_mem_erase hi)]
    exact Finset.card_le_card
      (Finset.sdiff_subset_sdiff hU'U (Finset.Subset.refl _))
  have hSF : (∑ i ∈ frameIdSet st (rest ++ [(frame, leaves)]),
      (leafUniverse (rest ++ pn.1.map (fun r => (r.1, leaves' ∩ r.2)))
        \ visitedLeaves pn.2 i).card) + 1 ≤
      leafDeficit st (rest ++ [(frame, leaves)]) := by
    unfold leafDeficit
    have e1 := Finset.sum_erase_add
      (frameIdSet st (rest ++ [(frame, leaves)]))
      (fun i => (leafUniverse (rest ++ pn.1.map
        (fun r => (r.1, leaves' ∩ r.2))) \ visitedLeaves pn.2 i).card) hfF
    have e2 := Finset.sum_erase_add
      (frameIdSet st (rest ++ [(frame, leaves)]))
      (fun i => (leafUniverse (rest ++ [(frame, leaves)]) \
        visitedLeaves st i).card) hfF
    have e3 := Finset.sum_le_sum hgt
    simp only [] at e1 e2
    omega
  have hSD : ∑ i ∈ (δf.map (fun fr => fr.id)).toFinset \
      frameIdSet st (rest ++ [(frame, leaves)]),
      (leafUniverse (rest ++ pn.1.map (fun r => (r.1, leaves' ∩ r.2)))
        \ visitedLeaves pn.2 i).card ≤
      δf.length * (leafUniverse (rest ++ [(frame, leaves)])).card := by
    calc ∑ i ∈ (δf.map (fun fr => fr.id)).toFinset \
        frameIdSet st (rest ++ [(frame, leaves)]),
        (leafUniverse (rest ++ pn.1.map (fun r => (r.1, leaves' ∩ r.2)))
          \ visitedLeaves pn.2 i).card
        ≤ ((δf.map (fun fr => fr.id)).toFinset \
            frameIdSet st (rest ++ [(frame, leaves)])).card *
          (leafUniverse (rest ++ [(frame, leaves)])).card := by
          rw [← smul_eq_mul]
          refine Finset.sum_le_card_nsmul _ _ _ ?_
          intro i hi
          exact Nat.le_trans
            (Finset.card_le_card (Finset.sdiff_subset))
            (Finset.card_le_card hU'U)
      _ ≤ δf.length * (leafUniverse (rest ++ [(frame, leaves)])).card := by
          refine Nat.mul_le_mul_right _ ?_
          calc ((δf.map (fun fr => fr.id)).toFinset \
              frameIdSet st (rest ++ [(frame, leaves)])).card
              ≤ (δf.map (fun fr => fr.id)).toFinset.card :=
                Finset.card_le_card (Finset.sdiff_subset)
            _ ≤ (δf.map (fun fr => fr.id)).length :=
                (δf.map (fun fr => fr.id)).toFinset_card_le
            _ = δf.length := List.length_map _ _
  have hD' : leafDeficit pn.2
      (rest ++ pn.1.map (fun r => (r.1, leaves' ∩ r.2))) ≤
      (∑ i ∈ frameIdSet st (rest ++ [(frame, leaves)]),
        (leafUniverse (rest ++ pn.1.map (fun r => (r.1, leaves' ∩ r.2)))
          \ visitedLeaves pn.2 i).card) +
      ∑ i ∈ (δf.map (fun fr => fr.id)).toFinset \
        frameIdSet st (rest ++ [(frame, leaves)]),
        (leafUniverse (rest ++ pn.1.map (fun r => (r.1, leaves' ∩ r.2)))
          \ visitedLeaves pn.2 i).card := by
    unfold leafDeficit
    calc ∑ i ∈ (frameIdSet pn.2
          (rest ++ pn.1.map (fun r => (r.1, leaves' ∩ r.2)))),
        (leafUniverse (rest ++ pn.1.map (fun r => (r.1, leaves' ∩ r.2)))
          \ visitedLeaves pn.2 i).card
        ≤ ∑ i ∈ frameIdSet st (rest ++ [(frame, leaves)]) ∪
            (δf.map (fun fr => fr.id)).toFinset,
          (leafUniverse (rest ++ pn.1.map (fun r => (r.1, leaves' ∩ r.2)))
            \ visitedLeaves pn.2 i).card :=
          Finset.sum_le_sum_of_subset hF'
      _ = _ := by
          rw [← Finset.union_sdiff_self_eq_union]
          exact Finset.sum_union Finset.disjoint_sdiff
  have hpool' : poolSize pn.2 kind + δf.length ≤ poolSize st kind := hpool
  have hB : ((leafUniverse (rest ++ [(frame, leaves)])).card + 1) *
      poolSize pn.2 kind +
      δf.length * (leafUniverse (rest ++ [(frame, leaves)])).card +
      δf.length ≤
      ((leafUniverse (rest ++ [(frame, leaves)])).card + 1) *
        poolSize st kind := by
    have h1 := Nat.mul_le_mul_left
      ((leafUniverse (rest ++ [(frame, leaves)])).card + 1) hpool'
    rw [Nat.mul_add] at h1
    have h2 : ((leafUniverse (rest ++ [(frame, leaves)])).card + 1) *
        δf.length =
        δf.length * (leafUniverse (rest ++ [(frame, leaves)])).card +
          δf.length := by
      rw [Nat.mul_comm, Nat.mul_succ]
    omega
  have hA : ((leafUniverse (rest ++ pn.1.map
      (fun r => (r.1, leaves' ∩ r.2)))).card + 1) * poolSize pn.2 kind ≤
      ((leafUniverse (rest ++ [(frame, leaves)])).card + 1) *
        poolSize pn.2 kind :=
    Nat.mul_le_mul_right _ (Nat.succ_le_succ (Finset.card_le_card hU'U))
  show ((leafUniverse _).card + 1) * poolSize pn.2 kind + leafDeficit pn.2 _ <
    ((leafUniverse _).card + 1) * poolSize st kind + leafDeficit st _
  exact measure_arith _ _ _ _ _ _ _ _ δf.length hA hB hD' hSF hSD
theorem expandStep_decrease (kind : TraceKind) (run : Run) (st : GenState)
    (q : List (TraceFrame × Finset Nat)) (hq : q ≠ []) :
    ∃ s', ModelGenerator.expandStep kind run (st, q) = some s' ∧
      (expMeasure kind s' < expMeasure kind (st, q) ∨
       (expMeasure kind s' ≤ expMeasure kind (st, q) ∧
        s'.2.length < q.length)) := by
  obtain ⟨rest, e, rfl⟩ := exists_concat_of_ne_nil hq
  obtain ⟨frame, leaves⟩ := e
  have hlen : rest.length < (rest ++ [(frame, leaves)]).length := by simp
  simp only [ModelGenerator.expandStep, pyPop_concat]
  by_cases he : leaves = ∅
  · rw [if_pos he]
    exact ⟨(st, rest), rfl,
      Or.inr ⟨expMeasure_prune kind st rest _, hlen⟩⟩
  · rw [if_neg he]
    cases hv : (st.visitedFrames.find? (fun p => p.1 = frame.id)).map
        (fun p => p.2) with
    | some vis =>
        simp only []
        have hvl : visitedLeaves st frame.id = vis := by
          unfold visitedLeaves
          rw [hv]
          rfl
        by_cases hd : leaves \ vis = ∅
        · rw [if_pos hd]
          exact ⟨(st, rest), rfl,
            Or.inr ⟨expMeasure_prune kind st rest _, hlen⟩⟩
        · rw [if_neg hd]
          refine ⟨_, rfl, Or.inl ?_⟩
          refine expMeasure_expand kind run st rest frame leaves
            (leaves \ vis) (vis ∪ (leaves \ vis)) Finset.sdiff_subset hd
            ?_ ?_
          · rw [hvl]
            ext x
            simp only [Finset.mem_inter, Finset.mem_sdiff,
              Finset.not_mem_empty, iff_false]
            rintro ⟨⟨-, h2⟩, h3⟩
            exact h2 h3
          · rw [hvl]
    | none =>
        simp only []
        have hvl : visitedLeaves st frame.id = ∅ := by
          unfold visitedLeaves
          rw [hv]
          rfl
        refine ⟨_, rfl, Or.inl ?_⟩
        refine expMeasure_expand kind run st rest frame leaves leaves leaves
          (Finset.Subset.refl _) he ?_ ?_
        · rw [hvl]
          exact Finset.inter_empty leaves
        · rw [hvl]
          exact (Finset.empty_union leaves).symm
theorem expandLoop_adequate (kind : TraceKind) (run : Run) :
    ∀ (a b : Nat) (st : GenState) (q : List (TraceFrame × Finset Nat)),
    expMeasure kind (st, q) ≤ a → q.length ≤ b →
    ∃ n st', ModelGenerator.expandLoop kind run n (st, q) = some st' := by
  have hnil : ∀ st : GenState, ∃ n st',
      ModelGenerator.expandLoop kind run n (st, []) = some st' := by
    intro st
    exact ⟨1, st, by
      simp [ModelGenerator.expandLoop, ModelGenerator.expandStep, pyPop_nil]⟩
  intro a
  induction a with
  | zero =>
      intro b
      induction b with
      | zero =>
          intro st q hμ hl
          have hq : q = [] := List.eq_nil_of_length_eq_zero
            (Nat.le_zero.mp hl)
          subst hq
          exact hnil st
      | succ b ihb =>
          intro st q hμ hl
          by_cases hq : q = []
          · subst hq
            exact hnil st
          · obtain ⟨s', hs, hdec⟩ := expandStep_decrease kind run st q hq
            obtain ⟨st2, q2⟩ := s'
            simp only [] at hdec
            rcases hdec with hlt | ⟨hle, hlen⟩
            · exact absurd (Nat.lt_of_lt_of_le hlt hμ) (Nat.not_lt_zero _)
            · obtain ⟨n, st', hn⟩ := ihb st2 q2
                (Nat.le_trans hle hμ) (by omega)
              refine ⟨n + 1, st', ?_⟩
              simp only [ModelGenerator.expandLoop, hs]
              exact hn
  | succ a iha =>
      intro b
      induction b with
      | zero =>
          intro st q hμ hl
          have hq : q = [] := List.eq_nil_of_length_eq_zero
            (Nat.le_zero.mp hl)
          subst hq
          exact hnil st
      | succ b ihb =>
          intro st q hμ hl
          by_cases hq : q = []
          · subst hq
            exact hnil st
          · obtain ⟨s', hs, hdec⟩ := expandStep_decrease kind run st q hq
            obtain ⟨st2, q2⟩ := s'
            simp only [] at hdec
            rcases hdec with hlt | ⟨hle, hlen⟩
            · obtain ⟨n, st', hn⟩ := iha q2.length st2 q2
                (by omega) (Nat.le_refl _)
              refine ⟨n + 1, st', ?_⟩
              simp only [ModelGenerator.expandLoop, hs]
              exact hn
            · obtain ⟨n, st', hn⟩ := ihb st2 q2
                (Nat.le_trans hle hμ) (by omega)
              refine ⟨n + 1, st', ?_⟩
              simp only [ModelGenerator.expandLoop, hs]
              exact hn
/-- C1: the transitive-expansion worklist loop terminates on every input,
including cyclic trace pools: for every state and queue some finite fuel
drains the queue (`expandLoop` returns `some`).  The bookkeeping that
guarantees this: a frame whose visited entry already covers the popped
leaf set is pruned without re-expansion, and when uncovered leaf ids
remain, the frame's recorded leaf set strictly grows — and the leaf
universe and pool are finite. -/
theorem expansion_terminates (kind : TraceKind) (run : Run) :
    (∀ (st : GenState) (q : List (TraceFrame × Finset Nat)),
      ∃ n st', ModelGenerator.expandLoop kind run n (st, q) = some st') ∧
    (∀ (st : GenState) (q rest : List (TraceFrame × Finset Nat))
      (frame : TraceFrame) (leaves vis : Finset Nat),
      pyPop q = some ((frame, leaves), rest) →
      leaves ≠ ∅ →
      (st.visitedFrames.find? (fun p => p.1 = frame.id)).map
        (fun p => p.2) = some vis →
      (leaves \ vis = ∅ →
        ModelGenerator.expandStep kind run (st, q) = some (st, rest)) ∧
      (leaves \ vis ≠ ∅ →
        ∃ s', ModelGenerator.expandStep kind run (st, q) = some s' ∧
          visitedLeaves s'.1 frame.id = vis ∪ (leaves \ vis) ∧
          vis ⊂ vis ∪ (leaves \ vis))) := by
  constructor
  · intro st q
    exact expandLoop_adequate kind run (expMeasure kind (st, q)) q.length
      st q (Nat.le_refl _) (Nat.le_refl _)
  · intro st q rest frame leaves vis hpop hne hfind
    constructor
    · intro hd
      simp only [ModelGenerator.expandStep, hpop]
      rw [if_neg hne, hfind]
      simp only []
      rw [if_pos hd]
    · intro hd
      generalize hst1 : ({ st with visitedFrames := setVisited st.visitedFrames frame.id (vis ∪ leaves \ vis) } : GenState) = st1
      refine ⟨((ModelGenerator._get_or_populate_trace_frames kind run st1
          frame.calleeId frame.calleePort).2,
        rest ++ (ModelGenerator._get_or_populate_trace_frames kind run st1
          frame.calleeId frame.calleePort).1.map
          (fun r => (r.1, leaves \ vis ∩ r.2))), ?_, ?_, ?_⟩
      · simp only [ModelGenerator.expandStep, hpop]
        rw [if_neg hne, hfind]
        simp only []
        rw [if_neg hd, hst1]
      · obtain ⟨-, hv, -, -⟩ :=
          getOrPop_ext kind run st1 frame.calleeId frame.calleePort
        show visitedLeaves _ frame.id = vis ∪ leaves \ vis
        rw [visitedLeaves_congr _ _ hv frame.id, ← hst1,
          visitedLeaves_update st frame.id (vis ∪ leaves \ vis) frame.id,
          if_pos rfl]
      · obtain ⟨x, hx⟩ :=
          Finset.nonempty_iff_ne_empty.mpr hd
        rw [Finset.ssubset_def]
        refine ⟨Finset.subset_union_left, ?_⟩
        intro hsup
        exact (Finset.mem_sdiff.mp hx).2
          (hsup (Finset.mem_union_right _ hx))
theorem expansion_terminates_witness :
    (∃ n st', ModelGenerator.expandLoop TraceKind.PRECONDITION runW n
      (stC1, [(cxFrame, ({6} : Finset Nat))]) = some st') ∧
    (∃ s', ModelGenerator.expandStep TraceKind.PRECONDITION runW
        (stC1, [(cxFrame, ({6} : Finset Nat))]) = some s' ∧
      visitedLeaves s'.1 cxFrame.id =
        ({9} : Finset Nat) ∪ ({6} : Finset Nat) \ ({9} : Finset Nat) ∧
      ({9} : Finset Nat) ⊂
        ({9} : Finset Nat) ∪ ({6} : Finset Nat) \ ({9} : Finset Nat)) := by
  have h := expansion_terminates TraceKind.PRECONDITION runW
  refine ⟨h.1 stC1 [(cxFrame, {6})], ?_⟩
  exact (h.2 stC1 [(cxFrame, {6})] [] cxFrame {6} {9} (by decide)
    (by decide) (by decide)).2 (by decide)
